import Mathlib

set_option maxRecDepth 4000

/-!
Verification of the OpenPLC runtime v4 concurrency core against its
specification.  The definitions below are a shallow embedding of the C
sources, chiefly `core/src/plc_app/journal_buffer.c` (journal buffer),
`core/src/plc_app/image_tables.c` / `scan_cycle_manager` (timing),
`utils.c` (`sleep_until`) and the S7Comm reference plugin
(`core/src/drivers/plugins/native/s7comm/s7comm_plugin.cpp`).
Machine integers are modelled as `Nat` with explicit `% 2^w` reductions at
the points where the C types truncate.  Pointer-valued image-table slots
become `Option Nat`: `none` is an unbound (NULL) slot, `some v` a bound
cell currently holding `v`.
-/

/-! ## Journal buffer: data model (journal_buffer.h / journal_buffer.c) -/

/-- Capacity of the static journal (`#define JOURNAL_MAX_ENTRIES 1024`). -/
def JOURNAL_MAX_ENTRIES : Nat := 1024

/-- Modulus of a `uint8_t`. -/
def UINT8_MOD : Nat := 256

/-- Modulus of a `uint16_t`. -/
def UINT16_MOD : Nat := 65536

/-- Modulus of a `uint32_t`. -/
def UINT32_MOD : Nat := 4294967296

/-- Modulus of a `uint64_t`. -/
def UINT64_MOD : Nat := 18446744073709551616

/-- One record of the journal, mirroring `journal_entry_t`:
`sequence : uint32`, `buffer_type : uint8` (the `journal_buffer_type_t`
code 0..13), `bit_index : uint8` (0..7 for bool families, 0xFF otherwise),
`index : uint16`, `value : uint64`. -/
structure journal_entry_t where
  sequence : Nat
  buffer_type : Nat
  bit_index : Nat
  index : Nat
  value : Nat
deriving DecidableEq

/-- Address of one image-table cell.  The C runtime keeps fourteen separate
pointer arrays (`journal_buffer_ptrs_t`); here they are merged into a single
addressed store keyed by the family code 0..13, the array index, and - for
the three bool families only - the bit coordinate (non-bool families are
normalised to bit 0, matching the one-dimensional C arrays). -/
structure Slot where
  family : Nat
  index : Nat
  bit : Nat
deriving DecidableEq

/-- The image tables: every slot is either unbound (`none`, a NULL pointer in
`journal_buffer_ptrs_t`) or bound to a cell holding a value. -/
def ImageTables : Type := Slot → Option Nat

/-- The image-table slot a journal entry addresses, as resolved by
`apply_entry`: bool families (codes 0..2) use `bit_index`, the others
ignore it. -/
def targetSlot (e : journal_entry_t) : Slot :=
  if e.buffer_type < 3 then ⟨e.buffer_type, e.index, e.bit_index⟩
  else ⟨e.buffer_type, e.index, 0⟩

/-- The masking `apply_entry` performs per family before the store:
`value & 1` for bool (codes 0..2), `& 0xFF` for byte (3..4), `& 0xFFFF`
for int (5..7), `& 0xFFFFFFFF` for dint (8..10), unmasked for lint
(11..13). -/
def mask_value (t v : Nat) : Nat :=
  if t < 3 then v &&& 1
  else if t < 5 then v &&& 0xFF
  else if t < 8 then v &&& 0xFFFF
  else if t < 11 then v &&& 0xFFFFFFFF
  else v

/-- `apply_entry` (journal_buffer.c:304): bounds-check the index against
`(uint16_t)buffer_size`, dispatch on the buffer type (unknown codes are
ignored by the switch default), skip unbound (NULL) slots, otherwise
overwrite the cell with the masked value. -/
def apply_entry (bufSize : Nat) (img : ImageTables) (e : journal_entry_t) : ImageTables :=
  if bufSize % UINT16_MOD ≤ e.index then img
  else if 14 ≤ e.buffer_type then img
  else
    match img (targetSlot e) with
    | none => img
    | some _ => fun s => if s = targetSlot e then some (mask_value e.buffer_type e.value) else img s

/-- The journal's mutable module state: `g_entries[0..g_count)` as a list,
`g_next_sequence : uint32`, and the `g_initialized` flag (field `ready`
here, because of a lexical restriction on the original name). -/
structure JournalState where
  entries : List journal_entry_t
  next_sequence : Nat
  ready : Bool
deriving DecidableEq

/-- `journal_init` (success path, non-NULL pointer bundle): resets count and
sequence to zero and marks the journal ready. -/
def journal_init : JournalState :=
  { entries := [], next_sequence := 0, ready := true }

/-- `journal_cleanup`: marks the journal uninitialised and zeroes its state. -/
def journal_cleanup : JournalState :=
  { entries := [], next_sequence := 0, ready := false }

/-- `emergency_flush_locked` (journal_buffer.c:458): apply every pending
entry to the image tables (under the image mutex, taken in image-then-journal
order) and clear count and sequence. -/
def emergency_flush_locked (bufSize : Nat) (img : ImageTables) (j : JournalState) :
    ImageTables × JournalState :=
  (j.entries.foldl (apply_entry bufSize) img,
   { entries := [], next_sequence := 0, ready := j.ready })

/-- `add_entry_locked` (journal_buffer.c:119) together with the caller's
field assignments: when the buffer is full (`g_count >= JOURNAL_MAX_ENTRIES`)
an emergency flush runs first; the new entry then receives the current
`g_next_sequence` (incremented as a `uint32`) and is stored at position
`g_count`, i.e. appended. -/
def add_entry_locked (bufSize : Nat) (img : ImageTables) (j : JournalState)
    (type index bit_index value : Nat) : ImageTables × JournalState :=
  let fl := if JOURNAL_MAX_ENTRIES ≤ j.entries.length
            then emergency_flush_locked bufSize img j
            else (img, j)
  (fl.1,
   { entries := fl.2.entries ++ [⟨fl.2.next_sequence, type, bit_index, index, value⟩],
     next_sequence := (fl.2.next_sequence + 1) % UINT32_MOD,
     ready := fl.2.ready })

/-- `journal_write_bool` (journal_buffer.c:135): fails when the journal is
not initialised, the type is not a bool family (0..2) or `bit > 7`;
otherwise records one entry holding 1 or 0.  The `uint16`/`uint8` parameter
types are modelled by reduction at entry. -/
def journal_write_bool (bufSize : Nat) (img : ImageTables) (j : JournalState)
    (type index bit : Nat) (value : Bool) : Int × ImageTables × JournalState :=
  let index := index % UINT16_MOD
  let bit := bit % UINT8_MOD
  if j.ready = false then (-1, img, j)
  else if type ≠ 0 ∧ type ≠ 1 ∧ type ≠ 2 then (-1, img, j)
  else if 7 < bit then (-1, img, j)
  else (0, add_entry_locked bufSize img j type index bit (if value then 1 else 0))

/-- `journal_write_byte` (journal_buffer.c:171): valid types are the byte
families 3..4; `bit_index` is recorded as 0xFF. -/
def journal_write_byte (bufSize : Nat) (img : ImageTables) (j : JournalState)
    (type index value : Nat) : Int × ImageTables × JournalState :=
  let index := index % UINT16_MOD
  let value := value % UINT8_MOD
  if j.ready = false then (-1, img, j)
  else if type ≠ 3 ∧ type ≠ 4 then (-1, img, j)
  else (0, add_entry_locked bufSize img j type index 0xFF value)

/-- `journal_write_int` (journal_buffer.c:200): valid types are the int
families 5..7. -/
def journal_write_int (bufSize : Nat) (img : ImageTables) (j : JournalState)
    (type index value : Nat) : Int × ImageTables × JournalState :=
  let index := index % UINT16_MOD
  let value := value % UINT16_MOD
  if j.ready = false then (-1, img, j)
  else if type ≠ 5 ∧ type ≠ 6 ∧ type ≠ 7 then (-1, img, j)
  else (0, add_entry_locked bufSize img j type index 0xFF value)

/-- `journal_write_dint` (journal_buffer.c:231): valid types are the dint
families 8..10. -/
def journal_write_dint (bufSize : Nat) (img : ImageTables) (j : JournalState)
    (type index value : Nat) : Int × ImageTables × JournalState :=
  let index := index % UINT16_MOD
  let value := value % UINT32_MOD
  if j.ready = false then (-1, img, j)
  else if type ≠ 8 ∧ type ≠ 9 ∧ type ≠ 10 then (-1, img, j)
  else (0, add_entry_locked bufSize img j type index 0xFF value)

/-- `journal_write_lint` (journal_buffer.c:262): valid types are the lint
families 11..13. -/
def journal_write_lint (bufSize : Nat) (img : ImageTables) (j : JournalState)
    (type index value : Nat) : Int × ImageTables × JournalState :=
  let index := index % UINT16_MOD
  let value := value % UINT64_MOD
  if j.ready = false then (-1, img, j)
  else if type ≠ 11 ∧ type ≠ 12 ∧ type ≠ 13 then (-1, img, j)
  else (0, add_entry_locked bufSize img j type index 0xFF value)

/-- `journal_apply_and_clear` (journal_buffer.c:418): a no-op when not
initialised; otherwise applies every stored entry in order to the image
tables (the caller holds the image mutex) and resets count and sequence. -/
def journal_apply_and_clear (bufSize : Nat) (img : ImageTables) (j : JournalState) :
    ImageTables × JournalState :=
  if j.ready = false then (img, j)
  else (j.entries.foldl (apply_entry bufSize) img,
        { entries := [], next_sequence := 0, ready := j.ready })

/-- `journal_pending_count` (journal_buffer.c:490): the current `g_count`. -/
def journal_pending_count (j : JournalState) : Nat :=
  j.entries.length

/-- `journal_get_sequence` (journal_buffer.c:499): the current
`g_next_sequence`. -/
def journal_get_sequence (j : JournalState) : Nat :=
  j.next_sequence

/-! ## Small arithmetic facts about the masks -/

/-- Element width in bits per buffer-type family, as the specification
states it: 1 for bool, 8 for byte, 16 for int, 32 for dint, 64 for lint. -/
def elem_width (t : Nat) : Nat :=
  if t < 3 then 1
  else if t < 5 then 8
  else if t < 8 then 16
  else if t < 11 then 32
  else 64

theorem mask_value_eq_mod (t v : Nat) (hv : v < UINT64_MOD) :
    mask_value t v = v % 2 ^ elem_width t := by
  unfold mask_value elem_width
  split_ifs with ha hb hc hd
  · exact Nat.and_pow_two_sub_one_eq_mod v 1
  · simpa using Nat.and_pow_two_sub_one_eq_mod v 8
  · simpa using Nat.and_pow_two_sub_one_eq_mod v 16
  · simpa using Nat.and_pow_two_sub_one_eq_mod v 32
  · exact (Nat.mod_eq_of_lt hv).symm

/-! ## C3: per-entry apply semantics -/

/-- C3: for every journal entry processed by `apply_and_clear`: an index at
or beyond the configured buffer size is dropped silently (the whole image is
unchanged); an unbound (NULL) destination slot is skipped; otherwise the
destination cell is overwritten with the value masked to the element width
of its type (1/8/16/32/64 bits), and no other slot changes. -/
theorem apply_entry_spec (bufSize : Nat) (img : ImageTables) (e : journal_entry_t)
    (hN : bufSize < UINT16_MOD) (hv : e.value < UINT64_MOD) :
    (bufSize ≤ e.index → apply_entry bufSize img e = img) ∧
    (e.index < bufSize → img (targetSlot e) = none → apply_entry bufSize img e = img) ∧
    (e.index < bufSize → e.buffer_type < 14 → ∀ v, img (targetSlot e) = some v →
      apply_entry bufSize img e (targetSlot e) = some (e.value % 2 ^ elem_width e.buffer_type) ∧
      ∀ s, s ≠ targetSlot e → apply_entry bufSize img e s = img s) := by
  have hmod : bufSize % UINT16_MOD = bufSize := Nat.mod_eq_of_lt hN
  refine ⟨?_, ?_, ?_⟩
  · intro hle
    unfold apply_entry
    rw [if_pos (by omega)]
  · intro hlt hnone
    unfold apply_entry
    rw [if_neg (by omega)]
    split
    · rfl
    · rw [hnone]
  · intro hlt hty v hsome
    unfold apply_entry
    rw [if_neg (by omega), if_neg (by omega), hsome]
    constructor
    · simp [mask_value_eq_mod e.buffer_type e.value hv]
    · intro s hs
      simp [hs]

/-- An image with every slot unbound, used for concrete instantiations. -/
def imgNone : ImageTables := fun _ => none

/-- A concrete out-of-bounds journal entry, used for concrete instantiations. -/
def e2000 : journal_entry_t := ⟨0, 6, 0xFF, 2000, 7⟩

theorem apply_entry_spec_witness :
    ((1024 : Nat) < UINT16_MOD ∧ e2000.value < UINT64_MOD) ∧
    ((1024 ≤ e2000.index → apply_entry 1024 imgNone e2000 = imgNone) ∧
     (e2000.index < 1024 → imgNone (targetSlot e2000) = none →
        apply_entry 1024 imgNone e2000 = imgNone) ∧
     (e2000.index < 1024 → e2000.buffer_type < 14 →
        ∀ v, imgNone (targetSlot e2000) = some v →
        apply_entry 1024 imgNone e2000 (targetSlot e2000)
          = some (e2000.value % 2 ^ elem_width e2000.buffer_type) ∧
        ∀ s, s ≠ targetSlot e2000 → apply_entry 1024 imgNone e2000 s = imgNone s)) :=
  ⟨⟨by decide, by decide⟩, apply_entry_spec 1024 imgNone e2000 (by decide) (by decide)⟩

/-! ## C4: writer validation -/

theorem add_entry_locked_entries (bufSize : Nat) (img : ImageTables) (j : JournalState)
    (type index bit_index value : Nat) :
    (add_entry_locked bufSize img j type index bit_index value).2.entries
      = (if JOURNAL_MAX_ENTRIES ≤ j.entries.length then [] else j.entries)
        ++ [⟨(if JOURNAL_MAX_ENTRIES ≤ j.entries.length then 0 else j.next_sequence),
             type, bit_index, index, value⟩] := by
  by_cases h : JOURNAL_MAX_ENTRIES ≤ j.entries.length <;>
    simp [add_entry_locked, emergency_flush_locked, h]

/-- C4: every journal write function returns a nonzero failure code, and
leaves the image tables and the journal untouched, exactly when the type
code is outside that family's valid range, when `bit > 7` for a bool write,
or when the journal is not initialised; otherwise it returns 0 and appends
exactly one entry (after an emergency flush when the journal was full). -/
theorem journal_writers_validation (bufSize : Nat) :
    (∀ (img : ImageTables) (j : JournalState) (type index bit : Nat) (value : Bool),
      ((journal_write_bool bufSize img j type index bit value).1 = 0 ↔
        j.ready = true ∧ (type = 0 ∨ type = 1 ∨ type = 2) ∧ bit % UINT8_MOD ≤ 7) ∧
      ((journal_write_bool bufSize img j type index bit value).1 ≠ 0 →
        (journal_write_bool bufSize img j type index bit value).2 = (img, j)) ∧
      ((journal_write_bool bufSize img j type index bit value).1 = 0 →
        ∃ e, (journal_write_bool bufSize img j type index bit value).2.2.entries
          = (if JOURNAL_MAX_ENTRIES ≤ j.entries.length then [] else j.entries) ++ [e])) ∧
    (∀ (img : ImageTables) (j : JournalState) (type index value : Nat),
      ((journal_write_byte bufSize img j type index value).1 = 0 ↔
        j.ready = true ∧ (type = 3 ∨ type = 4)) ∧
      ((journal_write_byte bufSize img j type index value).1 ≠ 0 →
        (journal_write_byte bufSize img j type index value).2 = (img, j)) ∧
      ((journal_write_byte bufSize img j type index value).1 = 0 →
        ∃ e, (journal_write_byte bufSize img j type index value).2.2.entries
          = (if JOURNAL_MAX_ENTRIES ≤ j.entries.length then [] else j.entries) ++ [e])) ∧
    (∀ (img : ImageTables) (j : JournalState) (type index value : Nat),
      ((journal_write_int bufSize img j type index value).1 = 0 ↔
        j.ready = true ∧ (type = 5 ∨ type = 6 ∨ type = 7)) ∧
      ((journal_write_int bufSize img j type index value).1 ≠ 0 →
        (journal_write_int bufSize img j type index value).2 = (img, j)) ∧
      ((journal_write_int bufSize img j type index value).1 = 0 →
        ∃ e, (journal_write_int bufSize img j type index value).2.2.entries
          = (if JOURNAL_MAX_ENTRIES ≤ j.entries.length then [] else j.entries) ++ [e])) ∧
    (∀ (img : ImageTables) (j : JournalState) (type index value : Nat),
      ((journal_write_dint bufSize img j type index value).1 = 0 ↔
        j.ready = true ∧ (type = 8 ∨ type = 9 ∨ type = 10)) ∧
      ((journal_write_dint bufSize img j type index value).1 ≠ 0 →
        (journal_write_dint bufSize img j type index value).2 = (img, j)) ∧
      ((journal_write_dint bufSize img j type index value).1 = 0 →
        ∃ e, (journal_write_dint bufSize img j type index value).2.2.entries
          = (if JOURNAL_MAX_ENTRIES ≤ j.entries.length then [] else j.entries) ++ [e])) ∧
    (∀ (img : ImageTables) (j : JournalState) (type index value : Nat),
      ((journal_write_lint bufSize img j type index value).1 = 0 ↔
        j.ready = true ∧ (type = 11 ∨ type = 12 ∨ type = 13)) ∧
      ((journal_write_lint bufSize img j type index value).1 ≠ 0 →
        (journal_write_lint bufSize img j type index value).2 = (img, j)) ∧
      ((journal_write_lint bufSize img j type index value).1 = 0 →
        ∃ e, (journal_write_lint bufSize img j type index value).2.2.entries
          = (if JOURNAL_MAX_ENTRIES ≤ j.entries.length then [] else j.entries) ++ [e])) := by
  refine ⟨?_, ?_, ?_, ?_, ?_⟩
  · intro img j type index bit value
    simp only [journal_write_bool]
    by_cases h1 : j.ready = false
    · rw [if_pos h1]
      refine ⟨⟨fun h => absurd (show (-1 : Int) = 0 from h) (by norm_num), fun hr => ?_⟩,
        fun _ => rfl, fun h => absurd (show (-1 : Int) = 0 from h) (by norm_num)⟩
      exact absurd hr.1 (by simp [h1])
    · rw [if_neg h1]
      by_cases h2 : type ≠ 0 ∧ type ≠ 1 ∧ type ≠ 2
      · rw [if_pos h2]
        refine ⟨⟨fun h => absurd (show (-1 : Int) = 0 from h) (by norm_num), fun hr => ?_⟩,
          fun _ => rfl, fun h => absurd (show (-1 : Int) = 0 from h) (by norm_num)⟩
        rcases hr with ⟨-, hty, -⟩
        omega
      · rw [if_neg h2]
        by_cases h3 : 7 < bit % UINT8_MOD
        · rw [if_pos h3]
          refine ⟨⟨fun h => absurd (show (-1 : Int) = 0 from h) (by norm_num), fun hr => ?_⟩,
            fun _ => rfl, fun h => absurd (show (-1 : Int) = 0 from h) (by norm_num)⟩
          rcases hr with ⟨-, -, hb⟩
          omega
        · rw [if_neg h3]
          refine ⟨⟨fun _ => ⟨by simpa using h1, by omega, by omega⟩, fun _ => rfl⟩,
            fun hne => absurd rfl hne, fun _ => ?_⟩
          exact ⟨_, add_entry_locked_entries bufSize img j type (index % UINT16_MOD)
            (bit % UINT8_MOD) (if value then 1 else 0)⟩
  · intro img j type index value
    simp only [journal_write_byte]
    by_cases h1 : j.ready = false
    · rw [if_pos h1]
      refine ⟨⟨fun h => absurd (show (-1 : Int) = 0 from h) (by norm_num), fun hr => ?_⟩,
        fun _ => rfl, fun h => absurd (show (-1 : Int) = 0 from h) (by norm_num)⟩
      exact absurd hr.1 (by simp [h1])
    · rw [if_neg h1]
      by_cases h2 : type ≠ 3 ∧ type ≠ 4
      · rw [if_pos h2]
        refine ⟨⟨fun h => absurd (show (-1 : Int) = 0 from h) (by norm_num), fun hr => ?_⟩,
          fun _ => rfl, fun h => absurd (show (-1 : Int) = 0 from h) (by norm_num)⟩
        rcases hr with ⟨-, hty⟩
        omega
      · rw [if_neg h2]
        refine ⟨⟨fun _ => ⟨by simpa using h1, by omega⟩, fun _ => rfl⟩,
          fun hne => absurd rfl hne, fun _ => ?_⟩
        exact ⟨_, add_entry_locked_entries bufSize img j type (index % UINT16_MOD)
          0xFF (value % UINT8_MOD)⟩
  · intro img j type index value
    simp only [journal_write_int]
    by_cases h1 : j.ready = false
    · rw [if_pos h1]
      refine ⟨⟨fun h => absurd (show (-1 : Int) = 0 from h) (by norm_num), fun hr => ?_⟩,
        fun _ => rfl, fun h => absurd (show (-1 : Int) = 0 from h) (by norm_num)⟩
      exact absurd hr.1 (by simp [h1])
    · rw [if_neg h1]
      by_cases h2 : type ≠ 5 ∧ type ≠ 6 ∧ type ≠ 7
      · rw [if_pos h2]
        refine ⟨⟨fun h => absurd (show (-1 : Int) = 0 from h) (by norm_num), fun hr => ?_⟩,
          fun _ => rfl, fun h => absurd (show (-1 : Int) = 0 from h) (by norm_num)⟩
        rcases hr with ⟨-, hty⟩
        omega
      · rw [if_neg h2]
        refine ⟨⟨fun _ => ⟨by simpa using h1, by omega⟩, fun _ => rfl⟩,
          fun hne => absurd rfl hne, fun _ => ?_⟩
        exact ⟨_, add_entry_locked_entries bufSize img j type (index % UINT16_MOD)
          0xFF (value % UINT16_MOD)⟩
  · intro img j type index value
    simp only [journal_write_dint]
    by_cases h1 : j.ready = false
    · rw [if_pos h1]
      refine ⟨⟨fun h => absurd (show (-1 : Int) = 0 from h) (by norm_num), fun hr => ?_⟩,
        fun _ => rfl, fun h => absurd (show (-1 : Int) = 0 from h) (by norm_num)⟩
      exact absurd hr.1 (by simp [h1])
    · rw [if_neg h1]
      by_cases h2 : type ≠ 8 ∧ type ≠ 9 ∧ type ≠ 10
      · rw [if_pos h2]
        refine ⟨⟨fun h => absurd (show (-1 : Int) = 0 from h) (by norm_num), fun hr => ?_⟩,
          fun _ => rfl, fun h => absurd (show (-1 : Int) = 0 from h) (by norm_num)⟩
        rcases hr with ⟨-, hty⟩
        omega
      · rw [if_neg h2]
        refine ⟨⟨fun _ => ⟨by simpa using h1, by omega⟩, fun _ => rfl⟩,
          fun hne => absurd rfl hne, fun _ => ?_⟩
        exact ⟨_, add_entry_locked_entries bufSize img j type (index % UINT16_MOD)
          0xFF (value % UINT32_MOD)⟩
  · intro img j type index value
    simp only [journal_write_lint]
    by_cases h1 : j.ready = false
    · rw [if_pos h1]
      refine ⟨⟨fun h => absurd (show (-1 : Int) = 0 from h) (by norm_num), fun hr => ?_⟩,
        fun _ => rfl, fun h => absurd (show (-1 : Int) = 0 from h) (by norm_num)⟩
      exact absurd hr.1 (by simp [h1])
    · rw [if_neg h1]
      by_cases h2 : type ≠ 11 ∧ type ≠ 12 ∧ type ≠ 13
      · rw [if_pos h2]
        refine ⟨⟨fun h => absurd (show (-1 : Int) = 0 from h) (by norm_num), fun hr => ?_⟩,
          fun _ => rfl, fun h => absurd (show (-1 : Int) = 0 from h) (by norm_num)⟩
        rcases hr with ⟨-, hty⟩
        omega
      · rw [if_neg h2]
        refine ⟨⟨fun _ => ⟨by simpa using h1, by omega⟩, fun _ => rfl⟩,
          fun hne => absurd rfl hne, fun _ => ?_⟩
        exact ⟨_, add_entry_locked_entries bufSize img j type (index % UINT16_MOD)
          0xFF (value % UINT64_MOD)⟩

/-! ## C6: empty apply is a no-op; a second apply changes nothing -/

/-- C6: applying an empty journal leaves the image tables unchanged, and a
second `apply_and_clear` with no intervening writes returns exactly the
image tables and journal state the first apply produced. -/
theorem journal_apply_empty_twice (bufSize : Nat) (img : ImageTables) (j : JournalState) :
    (j.entries = [] → (journal_apply_and_clear bufSize img j).1 = img) ∧
    journal_apply_and_clear bufSize (journal_apply_and_clear bufSize img j).1
        (journal_apply_and_clear bufSize img j).2
      = journal_apply_and_clear bufSize img j := by
  by_cases hr : j.ready = false
  · constructor
    · intro _
      simp [journal_apply_and_clear, hr]
    · simp [journal_apply_and_clear, hr]
  · constructor
    · intro h
      simp [journal_apply_and_clear, hr, h]
    · simp [journal_apply_and_clear, hr]

theorem journal_apply_empty_twice_witness :
    (journal_init.entries = [] →
      (journal_apply_and_clear 1024 imgNone journal_init).1 = imgNone) ∧
    journal_apply_and_clear 1024
        (journal_apply_and_clear 1024 imgNone journal_init).1
        (journal_apply_and_clear 1024 imgNone journal_init).2
      = journal_apply_and_clear 1024 imgNone journal_init :=
  journal_apply_empty_twice 1024 imgNone journal_init

/-! ## Reachable journal states, and the sequence invariant (C10, C7) -/

/-- The operations any thread may perform against the journal module: the
five write callbacks, `journal_apply_and_clear` (run by the scan cycle with
the image mutex held), and `journal_cleanup`; listed in the serialised order
in which the callers acquired the journal mutex. -/
inductive JOp where
  | wbool (type index bit : Nat) (value : Bool)
  | wbyte (type index value : Nat)
  | wint (type index value : Nat)
  | wdint (type index value : Nat)
  | wlint (type index value : Nat)
  | apply
  | cleanup
deriving DecidableEq

/-- One operation's effect on the pair (image tables, journal state). -/
def JOp.step (bufSize : Nat) (s : ImageTables × JournalState) : JOp → ImageTables × JournalState
  | .wbool type index bit value => (journal_write_bool bufSize s.1 s.2 type index bit value).2
  | .wbyte type index value => (journal_write_byte bufSize s.1 s.2 type index value).2
  | .wint type index value => (journal_write_int bufSize s.1 s.2 type index value).2
  | .wdint type index value => (journal_write_dint bufSize s.1 s.2 type index value).2
  | .wlint type index value => (journal_write_lint bufSize s.1 s.2 type index value).2
  | .apply => journal_apply_and_clear bufSize s.1 s.2
  | .cleanup => (s.1, journal_cleanup)

/-- Run a sequence of journal operations from a starting state. -/
def journal_run (bufSize : Nat) (s : ImageTables × JournalState) (ops : List JOp) :
    ImageTables × JournalState :=
  ops.foldl (JOp.step bufSize) s

/-- A state of the journal module reachable from a successful `journal_init`
by some sequence of operations. -/
def JournalReachable (bufSize : Nat) (img0 : ImageTables) (s : ImageTables × JournalState) : Prop :=
  ∃ ops : List JOp, journal_run bufSize (img0, journal_init) ops = s

/-- The journal's structural invariant: the stored sequence numbers equal
positions, `g_next_sequence` equals `g_count`, the count never exceeds the
capacity, and an uninitialised journal is empty. -/
def SeqInv (j : JournalState) : Prop :=
  j.next_sequence = j.entries.length ∧
  j.entries.length ≤ JOURNAL_MAX_ENTRIES ∧
  (∀ i e, j.entries.get? i = some e → e.sequence = i) ∧
  (j.ready = false → j.entries = [])

theorem seqInv_init : SeqInv journal_init := by
  refine ⟨rfl, by simp [journal_init, JOURNAL_MAX_ENTRIES], ?_, fun _ => rfl⟩
  intro i e h
  simp [journal_init] at h

theorem seqInv_cleanup : SeqInv journal_cleanup := by
  refine ⟨rfl, by simp [journal_cleanup, JOURNAL_MAX_ENTRIES], ?_, fun _ => rfl⟩
  intro i e h
  simp [journal_cleanup] at h

theorem seqInv_add_entry (bufSize : Nat) (img : ImageTables) (j : JournalState)
    (type index bit_index value : Nat) (h : SeqInv j) (hready : j.ready = true) :
    SeqInv (add_entry_locked bufSize img j type index bit_index value).2 := by
  obtain ⟨hn, hlen, hseq, -⟩ := h
  by_cases hf : JOURNAL_MAX_ENTRIES ≤ j.entries.length
  · simp only [add_entry_locked, emergency_flush_locked, if_pos hf]
    refine ⟨by simp [UINT32_MOD], by simp [JOURNAL_MAX_ENTRIES], ?_, ?_⟩
    · intro i e hie
      simp only [List.nil_append] at hie
      cases i with
      | zero => simp at hie; rw [← hie]
      | succ k => simp at hie
    · intro hrf
      rw [hready] at hrf
      exact absurd hrf (by simp)
  · simp only [add_entry_locked, if_neg hf]
    have hlt : j.entries.length < JOURNAL_MAX_ENTRIES := by omega
    have hmod : j.entries.length + 1 < UINT32_MOD := by
      simp only [JOURNAL_MAX_ENTRIES] at hlt
      simp only [UINT32_MOD]
      omega
    refine ⟨?_, ?_, ?_, ?_⟩
    · simp [hn, Nat.mod_eq_of_lt hmod]
    · simp only [List.length_append, List.length_cons, List.length_nil]
      simp only [JOURNAL_MAX_ENTRIES] at hlt ⊢
      omega
    · intro i e hie
      by_cases hi : i < j.entries.length
      · rw [List.get?_append hi] at hie
        exact hseq i e hie
      · have hi2 : i = j.entries.length := by
          by_contra hne
          have : j.entries.length + 1 ≤ i := by omega
          rw [List.get?_eq_none.2 (by simpa using this)] at hie
          exact Option.noConfusion hie
        subst hi2
        rw [List.get?_concat_length] at hie
        rw [← Option.some.inj hie]
        exact hn
    · intro hrf
      rw [hready] at hrf
      exact absurd hrf (by simp)

theorem journal_write_bool_state (bufSize : Nat) (img : ImageTables) (j : JournalState)
    (type index bit : Nat) (value : Bool) :
    (journal_write_bool bufSize img j type index bit value).2 = (img, j) ∨
    (j.ready = true ∧ ∃ t i b v,
      (journal_write_bool bufSize img j type index bit value).2
        = add_entry_locked bufSize img j t i b v) := by
  simp only [journal_write_bool]
  by_cases h1 : j.ready = false
  · rw [if_pos h1]; left; rfl
  · rw [if_neg h1]
    by_cases h2 : type ≠ 0 ∧ type ≠ 1 ∧ type ≠ 2
    · rw [if_pos h2]; left; rfl
    · rw [if_neg h2]
      by_cases h3 : 7 < bit % UINT8_MOD
      · rw [if_pos h3]; left; rfl
      · rw [if_neg h3]
        right
        exact ⟨by simpa using h1, _, _, _, _, rfl⟩

theorem journal_write_byte_state (bufSize : Nat) (img : ImageTables) (j : JournalState)
    (type index value : Nat) :
    (journal_write_byte bufSize img j type index value).2 = (img, j) ∨
    (j.ready = true ∧ ∃ t i b v,
      (journal_write_byte bufSize img j type index value).2
        = add_entry_locked bufSize img j t i b v) := by
  simp only [journal_write_byte]
  by_cases h1 : j.ready = false
  · rw [if_pos h1]; left; rfl
  · rw [if_neg h1]
    by_cases h2 : type ≠ 3 ∧ type ≠ 4
    · rw [if_pos h2]; left; rfl
    · rw [if_neg h2]
      right
      exact ⟨by simpa using h1, _, _, _, _, rfl⟩

theorem journal_write_int_state (bufSize : Nat) (img : ImageTables) (j : JournalState)
    (type index value : Nat) :
    (journal_write_int bufSize img j type index value).2 = (img, j) ∨
    (j.ready = true ∧ ∃ t i b v,
      (journal_write_int bufSize img j type index value).2
        = add_entry_locked bufSize img j t i b v) := by
  simp only [journal_write_int]
  by_cases h1 : j.ready = false
  · rw [if_pos h1]; left; rfl
  · rw [if_neg h1]
    by_cases h2 : type ≠ 5 ∧ type ≠ 6 ∧ type ≠ 7
    · rw [if_pos h2]; left; rfl
    · rw [if_neg h2]
      right
      exact ⟨by simpa using h1, _, _, _, _, rfl⟩

theorem journal_write_dint_state (bufSize : Nat) (img : ImageTables) (j : JournalState)
    (type index value : Nat) :
    (journal_write_dint bufSize img j type index value).2 = (img, j) ∨
    (j.ready = true ∧ ∃ t i b v,
      (journal_write_dint bufSize img j type index value).2
        = add_entry_locked bufSize img j t i b v) := by
  simp only [journal_write_dint]
  by_cases h1 : j.ready = false
  · rw [if_pos h1]; left; rfl
  · rw [if_neg h1]
    by_cases h2 : type ≠ 8 ∧ type ≠ 9 ∧ type ≠ 10
    · rw [if_pos h2]; left; rfl
    · rw [if_neg h2]
      right
      exact ⟨by simpa using h1, _, _, _, _, rfl⟩

theorem journal_write_lint_state (bufSize : Nat) (img : ImageTables) (j : JournalState)
    (type index value : Nat) :
    (journal_write_lint bufSize img j type index value).2 = (img, j) ∨
    (j.ready = true ∧ ∃ t i b v,
      (journal_write_lint bufSize img j type index value).2
        = add_entry_locked bufSize img j t i b v) := by
  simp only [journal_write_lint]
  by_cases h1 : j.ready = false
  · rw [if_pos h1]; left; rfl
  · rw [if_neg h1]
    by_cases h2 : type ≠ 11 ∧ type ≠ 12 ∧ type ≠ 13
    · rw [if_pos h2]; left; rfl
    · rw [if_neg h2]
      right
      exact ⟨by simpa using h1, _, _, _, _, rfl⟩

theorem seqInv_apply (bufSize : Nat) (img : ImageTables) (j : JournalState) (h : SeqInv j) :
    SeqInv (journal_apply_and_clear bufSize img j).2 := by
  unfold journal_apply_and_clear
  by_cases hr : j.ready = false
  · rw [if_pos hr]; exact h
  · rw [if_neg hr]
    refine ⟨rfl, by simp [JOURNAL_MAX_ENTRIES], ?_, fun _ => rfl⟩
    intro i e hie
    simp at hie

theorem seqInv_step (bufSize : Nat) (s : ImageTables × JournalState) (op : JOp)
    (h : SeqInv s.2) : SeqInv (JOp.step bufSize s op).2 := by
  cases op with
  | wbool type index bit value =>
    rcases journal_write_bool_state bufSize s.1 s.2 type index bit value with heq | ⟨hrd, t, i, b, v, heq⟩
    · simp only [JOp.step, heq]; exact h
    · simp only [JOp.step, heq]; exact seqInv_add_entry bufSize s.1 s.2 t i b v h hrd
  | wbyte type index value =>
    rcases journal_write_byte_state bufSize s.1 s.2 type index value with heq | ⟨hrd, t, i, b, v, heq⟩
    · simp only [JOp.step, heq]; exact h
    · simp only [JOp.step, heq]; exact seqInv_add_entry bufSize s.1 s.2 t i b v h hrd
  | wint type index value =>
    rcases journal_write_int_state bufSize s.1 s.2 type index value with heq | ⟨hrd, t, i, b, v, heq⟩
    · simp only [JOp.step, heq]; exact h
    · simp only [JOp.step, heq]; exact seqInv_add_entry bufSize s.1 s.2 t i b v h hrd
  | wdint type index value =>
    rcases journal_write_dint_state bufSize s.1 s.2 type index value with heq | ⟨hrd, t, i, b, v, heq⟩
    · simp only [JOp.step, heq]; exact h
    · simp only [JOp.step, heq]; exact seqInv_add_entry bufSize s.1 s.2 t i b v h hrd
  | wlint type index value =>
    rcases journal_write_lint_state bufSize s.1 s.2 type index value with heq | ⟨hrd, t, i, b, v, heq⟩
    · simp only [JOp.step, heq]; exact h
    · simp only [JOp.step, heq]; exact seqInv_add_entry bufSize s.1 s.2 t i b v h hrd
  | apply => exact seqInv_apply bufSize s.1 s.2 h
  | cleanup => exact seqInv_cleanup

theorem seqInv_run (bufSize : Nat) (ops : List JOp) :
    ∀ s : ImageTables × JournalState, SeqInv s.2 → SeqInv (journal_run bufSize s ops).2 := by
  induction ops with
  | nil => intro s h; exact h
  | cons op rest ih =>
    intro s h
    exact ih (JOp.step bufSize s op) (seqInv_step bufSize s op h)

theorem seqInv_of_reachable (bufSize : Nat) (img0 img : ImageTables) (j : JournalState)
    (h : JournalReachable bufSize img0 (img, j)) : SeqInv j := by
  obtain ⟨ops, hrun⟩ := h
  have := seqInv_run bufSize ops (img0, journal_init) seqInv_init
  rw [hrun] at this
  exact this

/-- C10: in every reachable journal state the stored sequence numbers equal
their positions (`entries[i].sequence = i`) and `next_sequence` equals the
entry count; this is established by `journal_init` and preserved by every
write (including those that trigger an emergency flush) and by
`journal_apply_and_clear`, which makes insertion order coincide with
sequence order. -/
theorem journal_sequence_invariant (bufSize : Nat) (img0 img : ImageTables) (j : JournalState)
    (h : JournalReachable bufSize img0 (img, j)) :
    j.next_sequence = j.entries.length ∧
    ∀ i e, j.entries.get? i = some e → e.sequence = i := by
  obtain ⟨hn, -, hseq, -⟩ := seqInv_of_reachable bufSize img0 img j h
  exact ⟨hn, hseq⟩

/-- A concrete journal state holding the single entry a successful
`journal_write_int` call leaves behind. -/
def jW10 : JournalState :=
  { entries := [⟨0, 6, 0xFF, 0, 5⟩], next_sequence := 1, ready := true }

theorem journal_sequence_invariant_witness :
    jW10.next_sequence = jW10.entries.length ∧
    ∀ i e, jW10.entries.get? i = some e → e.sequence = i :=
  journal_sequence_invariant 1024 imgNone imgNone jW10 ⟨[JOp.wint 6 0 5], rfl⟩

/-- C7: `journal_pending_count` returns 0 in any state reached immediately
after `journal_apply_and_clear` returns, and immediately after a successful
`journal_init`, whatever operations were performed before. -/
theorem journal_pending_zero (bufSize : Nat) (img0 img : ImageTables) (j : JournalState)
    (h : JournalReachable bufSize img0 (img, j)) :
    journal_pending_count (journal_apply_and_clear bufSize img j).2 = 0 ∧
    journal_pending_count journal_init = 0 := by
  obtain ⟨-, -, -, hrd⟩ := seqInv_of_reachable bufSize img0 img j h
  refine ⟨?_, rfl⟩
  unfold journal_apply_and_clear
  by_cases hr : j.ready = false
  · rw [if_pos hr]
    simp [journal_pending_count, hrd hr]
  · rw [if_neg hr]
    rfl

/-- A concrete journal state holding the single entry a successful
`journal_write_bool` call leaves behind. -/
def jW7 : JournalState :=
  { entries := [⟨0, 1, 0, 0, 1⟩], next_sequence := 1, ready := true }

theorem journal_pending_zero_witness :
    journal_pending_count (journal_apply_and_clear 1024 imgNone jW7).2 = 0 ∧
    journal_pending_count journal_init = 0 :=
  journal_pending_zero 1024 imgNone imgNone jW7 ⟨[JOp.wbool 1 0 0 true], rfl⟩

/-! ## C2: last-writer-wins within one tick -/

/-- Whether a journal entry, when applied, stores to slot `s`: its index is
in bounds, its type code is known, and it addresses `s`. -/
def entry_hits (bufSize : Nat) (s : Slot) (e : journal_entry_t) : Bool :=
  decide (e.index < bufSize % UINT16_MOD) && decide (e.buffer_type < 14)
    && decide (targetSlot e = s)

theorem entry_hits_iff (bufSize : Nat) (s : Slot) (e : journal_entry_t) :
    entry_hits bufSize s e = true ↔
      e.index < bufSize % UINT16_MOD ∧ e.buffer_type < 14 ∧ targetSlot e = s := by
  simp [entry_hits, and_assoc]

/-- The last entry of a list that stores to slot `s`, if any. -/
def last_write (bufSize : Nat) (s : Slot) : List journal_entry_t → Option journal_entry_t
  | [] => none
  | e :: l =>
    match last_write bufSize s l with
    | some x => some x
    | none => if entry_hits bufSize s e then some e else none

theorem apply_entry_at_miss (bufSize : Nat) (s : Slot) (e : journal_entry_t)
    (img : ImageTables) (h : entry_hits bufSize s e = false) :
    apply_entry bufSize img e s = img s := by
  have hno : ¬(e.index < bufSize % UINT16_MOD ∧ e.buffer_type < 14 ∧ targetSlot e = s) := by
    rw [← entry_hits_iff bufSize s e, h]
    simp
  unfold apply_entry
  by_cases hb : bufSize % UINT16_MOD ≤ e.index
  · rw [if_pos hb]
  · rw [if_neg hb]
    by_cases ht : 14 ≤ e.buffer_type
    · rw [if_pos ht]
    · rw [if_neg ht]
      have hts : targetSlot e ≠ s := fun hc => hno ⟨by omega, by omega, hc⟩
      have hst : s ≠ targetSlot e := fun hc => hts hc.symm
      cases hmatch : img (targetSlot e) with
      | none => rfl
      | some v => simp [hst]

theorem apply_entry_at_hit (bufSize : Nat) (s : Slot) (e : journal_entry_t)
    (img : ImageTables) (v : Nat) (h : entry_hits bufSize s e = true) (hb : img s = some v) :
    apply_entry bufSize img e s = some (mask_value e.buffer_type e.value) := by
  obtain ⟨h1, h2, h3⟩ := (entry_hits_iff bufSize s e).1 h
  unfold apply_entry
  rw [if_neg (by omega), if_neg (by omega), h3, hb]
  simp

theorem foldl_apply_entry_at (bufSize : Nat) (s : Slot) :
    ∀ (l : List journal_entry_t) (img : ImageTables) (v : Nat), img s = some v →
      (l.foldl (apply_entry bufSize) img) s =
        (match last_write bufSize s l with
         | none => some v
         | some e => some (mask_value e.buffer_type e.value)) := by
  intro l
  induction l with
  | nil => intro img v hb; simpa [last_write] using hb
  | cons e l ih =>
    intro img v hb
    simp only [List.foldl_cons, last_write]
    cases hhit : entry_hits bufSize s e with
    | false =>
      have hkeep : apply_entry bufSize img e s = some v := by
        rw [apply_entry_at_miss bufSize s e img hhit, hb]
      rw [ih (apply_entry bufSize img e) v hkeep]
      cases hlw : last_write bufSize s l <;> simp [hlw, hhit]
    | true =>
      have hnew : apply_entry bufSize img e s = some (mask_value e.buffer_type e.value) :=
        apply_entry_at_hit bufSize s e img v hhit hb
      rw [ih (apply_entry bufSize img e) (mask_value e.buffer_type e.value) hnew]
      cases hlw : last_write bufSize s l <;> simp [hlw, hhit]

theorem last_write_of_filter_nil (bufSize : Nat) (s : Slot) :
    ∀ l : List journal_entry_t, l.filter (entry_hits bufSize s) = [] →
      last_write bufSize s l = none := by
  intro l
  induction l with
  | nil => intro _; rfl
  | cons e l ih =>
    intro h
    rw [List.filter_cons] at h
    cases hhit : entry_hits bufSize s e with
    | false =>
      rw [hhit] at h
      simp only [Bool.false_eq_true, if_false] at h
      simp [last_write, ih h, hhit]
    | true =>
      rw [hhit] at h
      simp at h

theorem last_write_of_filter_singleton (bufSize : Nat) (s : Slot) :
    ∀ (l : List journal_entry_t) (a : journal_entry_t),
      l.filter (entry_hits bufSize s) = [a] → last_write bufSize s l = some a := by
  intro l
  induction l with
  | nil => intro a h; simp at h
  | cons e l ih =>
    intro a h
    rw [List.filter_cons] at h
    cases hhit : entry_hits bufSize s e with
    | false =>
      rw [hhit] at h
      simp only [Bool.false_eq_true, if_false] at h
      simp [last_write, ih a h]
    | true =>
      rw [hhit] at h
      simp only [if_true] at h
      have he : e = a := by
        have := congrArg (fun t => t.head?) h
        simpa using this
      subst he
      have ht : l.filter (entry_hits bufSize s) = [] := by
        have := congrArg (fun t => t.tail) h
        simpa using this
      simp [last_write, last_write_of_filter_nil bufSize s l ht, hhit]

theorem last_write_of_filter_pair (bufSize : Nat) (s : Slot) :
    ∀ (l : List journal_entry_t) (a b : journal_entry_t),
      l.filter (entry_hits bufSize s) = [a, b] → last_write bufSize s l = some b := by
  intro l
  induction l with
  | nil => intro a b h; simp at h
  | cons e l ih =>
    intro a b h
    rw [List.filter_cons] at h
    cases hhit : entry_hits bufSize s e with
    | false =>
      rw [hhit] at h
      simp only [Bool.false_eq_true, if_false] at h
      simp [last_write, ih a b h]
    | true =>
      rw [hhit] at h
      simp only [if_true] at h
      have ht : l.filter (entry_hits bufSize s) = [b] := by
        have := congrArg (fun t => t.tail) h
        simpa using this
      simp [last_write, last_write_of_filter_singleton bufSize s l b ht]

theorem filter_singleton_get? {α : Type} (p : α → Bool) :
    ∀ (l : List α) (b : α), l.filter p = [b] → ∃ k, l.get? k = some b := by
  intro l b h
  have hb : b ∈ l.filter p := by rw [h]; simp
  exact List.get?_of_mem (List.mem_of_mem_filter hb)

theorem filter_pair_get? {α : Type} (p : α → Bool) :
    ∀ (l : List α) (a b : α), l.filter p = [a, b] →
      ∃ i k, i < k ∧ l.get? i = some a ∧ l.get? k = some b := by
  intro l
  induction l with
  | nil => intro a b h; simp at h
  | cons x t ih =>
    intro a b h
    rw [List.filter_cons] at h
    cases hx : p x with
    | false =>
      rw [hx] at h
      simp only [Bool.false_eq_true, if_false] at h
      obtain ⟨i, k, hik, ha, hb⟩ := ih a b h
      exact ⟨i + 1, k + 1, by omega, by simpa using ha, by simpa using hb⟩
    | true =>
      rw [hx] at h
      simp only [if_true] at h
      have hxa : x = a := by
        have := congrArg (fun t => t.head?) h
        simpa using this
      have ht : t.filter p = [b] := by
        have := congrArg (fun t => t.tail) h
        simpa using this
      obtain ⟨k, hk⟩ := filter_singleton_get? p t b ht
      exact ⟨0, k + 1, by omega, by simp [hxa], by simpa using hk⟩

/-- C2 counterexample to the claim as stated: starting from a fresh journal,
slot `(type 6, index 0)` is bound and two successful `journal_write_int`
calls write the same value 100 to it.  Take `w2` to be the first write
(sequence 0) and `w1` the second (sequence 1).  After `apply_and_clear` the
slot holds 100, which is `w2`'s value, yet `w1.sequence < w2.sequence` is
false - so "the value equals w2's value iff w1.sequence < w2.sequence"
fails whenever the two writes carry equal values. -/
theorem journal_last_writer_counterexample :
    (journal_run 1024 (fun s => if s = ⟨6, 0, 0⟩ then some 0 else none, journal_init)
        [JOp.wint 6 0 100, JOp.wint 6 0 100]).2.entries
      = [⟨0, 6, 0xFF, 0, 100⟩, ⟨1, 6, 0xFF, 0, 100⟩] ∧
    (journal_apply_and_clear 1024
        (journal_run 1024 (fun s => if s = ⟨6, 0, 0⟩ then some 0 else none, journal_init)
          [JOp.wint 6 0 100, JOp.wint 6 0 100]).1
        (journal_run 1024 (fun s => if s = ⟨6, 0, 0⟩ then some 0 else none, journal_init)
          [JOp.wint 6 0 100, JOp.wint 6 0 100]).2).1
      ⟨6, 0, 0⟩ = some 100 ∧
    ¬((⟨1, 6, 0xFF, 0, 100⟩ : journal_entry_t).sequence
        < (⟨0, 6, 0xFF, 0, 100⟩ : journal_entry_t).sequence) := by
  refine ⟨by decide, by decide, by decide⟩

/-- C2 (amended): for every pair of successful journal writes `(w1, w2)`
targeting the same `(type, index[, bit])` enqueued between two consecutive
applies, with the destination slot bound, the value held by that slot after
`apply_and_clear` equals `w2`'s (masked) value if `w1.sequence <
w2.sequence`; entries are applied in insertion order, which equals sequence
order because sequences are assigned at insertion under the journal lock. -/
theorem journal_last_writer_wins (bufSize : Nat) (img0 img : ImageTables) (j : JournalState)
    (s : Slot) (v0 : Nat) (w1 w2 : journal_entry_t)
    (hr : JournalReachable bufSize img0 (img, j))
    (hb : img s = some v0)
    (hf : j.entries.filter (entry_hits bufSize s) = [w1, w2] ∨
          j.entries.filter (entry_hits bufSize s) = [w2, w1])
    (hseq : w1.sequence < w2.sequence) :
    (journal_apply_and_clear bufSize img j).1 s = some (mask_value w2.buffer_type w2.value) := by
  obtain ⟨-, -, hpos, hrd⟩ := seqInv_of_reachable bufSize img0 img j hr
  by_cases hready : j.ready = false
  · exfalso
    rw [hrd hready] at hf
    rcases hf with hf | hf <;> simp at hf
  · unfold journal_apply_and_clear
    rw [if_neg hready]
    rcases hf with hf | hf
    · show (j.entries.foldl (apply_entry bufSize) img) s = _
      rw [foldl_apply_entry_at bufSize s j.entries img v0 hb,
        last_write_of_filter_pair bufSize s j.entries w1 w2 hf]
    · exfalso
      obtain ⟨i, k, hik, h2, h1⟩ := filter_pair_get? (entry_hits bufSize s) j.entries w2 w1 hf
      have e2 := hpos i w2 h2
      have e1 := hpos k w1 h1
      omega

/-- An image binding the single int-family slot `(6, 0)`, used for concrete
instantiations. -/
def img1int : ImageTables := fun s => if s = ⟨6, 0, 0⟩ then some 0 else none

/-- The journal state after two successful `journal_write_int` calls to
`(type 6, index 0)` with values 5 and then 7. -/
def jW2 : JournalState :=
  { entries := [⟨0, 6, 0xFF, 0, 5⟩, ⟨1, 6, 0xFF, 0, 7⟩], next_sequence := 2, ready := true }

theorem journal_last_writer_wins_witness :
    (journal_apply_and_clear 1024 img1int jW2).1 ⟨6, 0, 0⟩ = some (mask_value 6 7) :=
  journal_last_writer_wins 1024 img1int img1int jW2 ⟨6, 0, 0⟩ 0
    ⟨0, 6, 0xFF, 0, 5⟩ ⟨1, 6, 0xFF, 0, 7⟩
    ⟨[JOp.wint 6 0 5, JOp.wint 6 0 7], rfl⟩ rfl (Or.inl (by decide)) (by decide)

/-! ## C5: emergency flush on a full journal -/

theorem add_entry_locked_full (bufSize : Nat) (img : ImageTables) (j : JournalState)
    (type index bit_index value : Nat) (hfull : j.entries.length = JOURNAL_MAX_ENTRIES) :
    add_entry_locked bufSize img j type index bit_index value
      = (j.entries.foldl (apply_entry bufSize) img,
         { entries := [⟨0, type, bit_index, index, value⟩],
           next_sequence := 1, ready := j.ready }) := by
  simp [add_entry_locked, emergency_flush_locked, hfull, UINT32_MOD]

/-- C5: when a journal write arrives with the entry count equal to the
capacity `J = 1024`, the emergency flush applies and clears all `J` pending
entries and then performs the caller's insertion: the write succeeds
(returns 0), the image tables have every pending entry applied, and the
journal afterwards holds exactly one entry - the triggering write - with
sequence number 0. -/
theorem journal_emergency_flush (bufSize : Nat) (img : ImageTables) (j : JournalState)
    (hready : j.ready = true) (hfull : j.entries.length = JOURNAL_MAX_ENTRIES) :
    (∀ type index bit value, (type = 0 ∨ type = 1 ∨ type = 2) → bit % UINT8_MOD ≤ 7 →
      journal_write_bool bufSize img j type index bit value
        = (0, j.entries.foldl (apply_entry bufSize) img,
           { entries := [⟨0, type, bit % UINT8_MOD, index % UINT16_MOD, if value then 1 else 0⟩],
             next_sequence := 1, ready := true })) ∧
    (∀ type index value, (type = 3 ∨ type = 4) →
      journal_write_byte bufSize img j type index value
        = (0, j.entries.foldl (apply_entry bufSize) img,
           { entries := [⟨0, type, 0xFF, index % UINT16_MOD, value % UINT8_MOD⟩],
             next_sequence := 1, ready := true })) ∧
    (∀ type index value, (type = 5 ∨ type = 6 ∨ type = 7) →
      journal_write_int bufSize img j type index value
        = (0, j.entries.foldl (apply_entry bufSize) img,
           { entries := [⟨0, type, 0xFF, index % UINT16_MOD, value % UINT16_MOD⟩],
             next_sequence := 1, ready := true })) ∧
    (∀ type index value, (type = 8 ∨ type = 9 ∨ type = 10) →
      journal_write_dint bufSize img j type index value
        = (0, j.entries.foldl (apply_entry bufSize) img,
           { entries := [⟨0, type, 0xFF, index % UINT16_MOD, value % UINT32_MOD⟩],
             next_sequence := 1, ready := true })) ∧
    (∀ type index value, (type = 11 ∨ type = 12 ∨ type = 13) →
      journal_write_lint bufSize img j type index value
        = (0, j.entries.foldl (apply_entry bufSize) img,
           { entries := [⟨0, type, 0xFF, index % UINT16_MOD, value % UINT64_MOD⟩],
             next_sequence := 1, ready := true })) := by
  refine ⟨?_, ?_, ?_, ?_, ?_⟩
  · intro type index bit value hty hbit
    simp only [journal_write_bool]
    rw [if_neg (by simp [hready]), if_neg (by omega), if_neg (by omega),
      add_entry_locked_full bufSize img j type (index % UINT16_MOD) (bit % UINT8_MOD)
        (if value then 1 else 0) hfull, hready]
  · intro type index value hty
    simp only [journal_write_byte]
    rw [if_neg (by simp [hready]), if_neg (by omega),
      add_entry_locked_full bufSize img j type (index % UINT16_MOD) 0xFF
        (value % UINT8_MOD) hfull, hready]
  · intro type index value hty
    simp only [journal_write_int]
    rw [if_neg (by simp [hready]), if_neg (by omega),
      add_entry_locked_full bufSize img j type (index % UINT16_MOD) 0xFF
        (value % UINT16_MOD) hfull, hready]
  · intro type index value hty
    simp only [journal_write_dint]
    rw [if_neg (by simp [hready]), if_neg (by omega),
      add_entry_locked_full bufSize img j type (index % UINT16_MOD) 0xFF
        (value % UINT32_MOD) hfull, hready]
  · intro type index value hty
    simp only [journal_write_lint]
    rw [if_neg (by simp [hready]), if_neg (by omega),
      add_entry_locked_full bufSize img j type (index % UINT16_MOD) 0xFF
        (value % UINT64_MOD) hfull, hready]

/-- A full journal: exactly `JOURNAL_MAX_ENTRIES` pending int writes. -/
def jFull : JournalState :=
  { entries := List.replicate JOURNAL_MAX_ENTRIES ⟨0, 6, 0xFF, 0, 5⟩,
    next_sequence := JOURNAL_MAX_ENTRIES, ready := true }

theorem journal_emergency_flush_witness :
    (∀ type index bit value, (type = 0 ∨ type = 1 ∨ type = 2) → bit % UINT8_MOD ≤ 7 →
      journal_write_bool 1024 imgNone jFull type index bit value
        = (0, jFull.entries.foldl (apply_entry 1024) imgNone,
           { entries := [⟨0, type, bit % UINT8_MOD, index % UINT16_MOD, if value then 1 else 0⟩],
             next_sequence := 1, ready := true })) ∧
    (∀ type index value, (type = 3 ∨ type = 4) →
      journal_write_byte 1024 imgNone jFull type index value
        = (0, jFull.entries.foldl (apply_entry 1024) imgNone,
           { entries := [⟨0, type, 0xFF, index % UINT16_MOD, value % UINT8_MOD⟩],
             next_sequence := 1, ready := true })) ∧
    (∀ type index value, (type = 5 ∨ type = 6 ∨ type = 7) →
      journal_write_int 1024 imgNone jFull type index value
        = (0, jFull.entries.foldl (apply_entry 1024) imgNone,
           { entries := [⟨0, type, 0xFF, index % UINT16_MOD, value % UINT16_MOD⟩],
             next_sequence := 1, ready := true })) ∧
    (∀ type index value, (type = 8 ∨ type = 9 ∨ type = 10) →
      journal_write_dint 1024 imgNone jFull type index value
        = (0, jFull.entries.foldl (apply_entry 1024) imgNone,
           { entries := [⟨0, type, 0xFF, index % UINT16_MOD, value % UINT32_MOD⟩],
             next_sequence := 1, ready := true })) ∧
    (∀ type index value, (type = 11 ∨ type = 12 ∨ type = 13) →
      journal_write_lint 1024 imgNone jFull type index value
        = (0, jFull.entries.foldl (apply_entry 1024) imgNone,
           { entries := [⟨0, type, 0xFF, index % UINT16_MOD, value % UINT64_MOD⟩],
             next_sequence := 1, ready := true })) :=
  journal_emergency_flush 1024 imgNone jFull rfl
    (by simp [jFull, List.length_replicate])

/-! ## C8: overrun counting and the tick schedule
(scan_cycle_manager / `scan_cycle_time_end`, and `sleep_until` in utils.c) -/

/-- `plc_timing_stats_t` (scan_cycle_manager.h): rolling timing statistics,
all fields `int64_t`. -/
structure plc_timing_stats_t where
  scan_time_min : Int
  scan_time_max : Int
  scan_time_avg : Int
  cycle_time_min : Int
  cycle_time_max : Int
  cycle_time_avg : Int
  cycle_latency_min : Int
  cycle_latency_max : Int
  cycle_latency_avg : Int
  scan_count : Int
  overruns : Int
deriving DecidableEq

/-- `scan_cycle_time_end` (scan_cycle_manager.c): update the rolling
min/max/average of the scan time (`now - last_start`, exact on the
monotonic clock where `now >= last_start`; `/` is C-style truncated int64
division) and increment `overruns` when the clock has already passed
`expected_start_us`, the scheduled start of the next cycle. -/
def scan_cycle_time_end (now_us last_start_us expected_start_us : Nat)
    (st : plc_timing_stats_t) : plc_timing_stats_t :=
  let scan_time_us : Int := (now_us : Int) - (last_start_us : Int)
  let st1 := if scan_time_us < st.scan_time_min
             then { st with scan_time_min := scan_time_us } else st
  let st2 := if scan_time_us > st1.scan_time_max
             then { st1 with scan_time_max := scan_time_us } else st1
  let st3 := { st2 with
    scan_time_avg := st2.scan_time_avg + (scan_time_us - st2.scan_time_avg) / st2.scan_count }
  if expected_start_us < now_us then { st3 with overruns := st3.overruns + 1 } else st3

/-- `sleep_until` (utils.c): advance the absolute schedule target `*ts` by
`period_ns` (`normalize_timespec` only carries nanoseconds into seconds, so
a timespec is one total-nanosecond count) and sleep with
`clock_nanosleep(CLOCK_MONOTONIC, TIMER_ABSTIME)` until that target - which
returns immediately when the target is already in the past.  Returns the
new target and the wake-up time `max target now`. -/
def sleep_until (ts period_ns now : Nat) : Nat × Nat :=
  (ts + period_ns, max (ts + period_ns) now)

/-- C8 counterexample to "no catch-up for missed ticks (the schedule is not
replayed to make up cycles that were skipped)".  Take `tick_period = 10` and
a schedule base of 0.  The first cycle's body overruns, finishing at
`now = 35`; its `sleep_until` advances the target only to 10 and wakes
immediately at 35.  The second cycle's body takes 1 time unit - far less
than the period - finishing at 36, yet its `sleep_until` also wakes
immediately (at 36), because the absolute target, now 20, is still in the
past: after one overrun the runtime starts the following ticks back-to-back
until the schedule catches up with the clock, i.e. the schedule IS replayed
to make up the missed ticks. -/
theorem scan_schedule_replay_counterexample :
    (sleep_until 0 10 35).2 = 35 ∧
    (sleep_until 0 10 35).1 = 10 ∧
    (sleep_until (sleep_until 0 10 35).1 10 36).2 = 36 ∧
    36 - (sleep_until 0 10 35).2 < 10 := by
  refine ⟨by decide, by decide, by decide, by decide⟩

/-- C8 (amended): if the loop body of a scan cycle runs longer than
`tick_period`, the overrun counter is incremented for that cycle and the
next tick starts immediately; the schedule target advances by exactly one
period per tick (an absolute schedule), so after an overrun subsequent
ticks also start immediately until the schedule catches up with the clock
(missed ticks are made up back-to-back rather than dropped). -/
theorem scan_overrun_and_immediate_tick
    (now_us last_start_us expected_start_us period : Nat) (st : plc_timing_stats_t)
    (hsched : expected_start_us = last_start_us + period)
    (hover : last_start_us + period < now_us) :
    (scan_cycle_time_end now_us last_start_us expected_start_us st).overruns
      = st.overruns + 1 ∧
    (∀ ts now2 : Nat, ts + period ≤ now2 → (sleep_until ts period now2).2 = now2) ∧
    (∀ ts now2 : Nat, (sleep_until ts period now2).1 = ts + period) := by
  refine ⟨?_, ?_, ?_⟩
  · simp only [scan_cycle_time_end]
    rw [if_pos (show expected_start_us < now_us by omega)]
    split <;> split <;> rfl
  · intro ts now2 h
    simp [sleep_until, Nat.max_eq_right h]
  · intro ts now2
    rfl

/-- Concrete timing statistics after one completed first cycle. -/
def st0 : plc_timing_stats_t := ⟨0, 0, 0, 0, 0, 0, 0, 0, 0, 1, 0⟩

theorem scan_overrun_and_immediate_tick_witness :
    (scan_cycle_time_end 25 0 10 st0).overruns = st0.overruns + 1 ∧
    (∀ ts now2 : Nat, ts + 10 ≤ now2 → (sleep_until ts 10 now2).2 = now2) ∧
    (∀ ts now2 : Nat, (sleep_until ts 10 now2).1 = ts + 10) :=
  scan_overrun_and_immediate_tick 25 0 10 10 st0 rfl (by decide)

/-! ## C9: S7Comm reference plugin, on-demand read path (s7comm_plugin.cpp) -/

/-- `s7comm_buffer_type_t`: the image-table mapping type a configured S7
area binds to. -/
inductive s7comm_buffer_type_t where
  | bool_input
  | bool_output
  | bool_memory
  | byte_input
  | byte_output
  | int_input
  | int_output
  | int_memory
  | dint_input
  | dint_output
  | dint_memory
  | lint_input
  | lint_output
  | lint_memory
deriving DecidableEq

/-- The image-table family code each `s7comm_buffer_type_t` constructor
denotes: the runtime-args arrays `bool_input .. lint_memory` handed to the
plugin are the same fourteen arrays the journal addresses, so they carry
the `journal_buffer_type_t` numbering. -/
def s7_family : s7comm_buffer_type_t → Nat
  | .bool_input => 0
  | .bool_output => 1
  | .bool_memory => 2
  | .byte_input => 3
  | .byte_output => 4
  | .int_input => 5
  | .int_output => 6
  | .int_memory => 7
  | .dint_input => 8
  | .dint_output => 9
  | .dint_memory => 10
  | .lint_input => 11
  | .lint_output => 12
  | .lint_memory => 13

/-- `swap16` (s7comm_plugin.cpp:120): 16-bit byte swap, host to S7
big-endian wire order. -/
def swap16 (val : Nat) : Nat :=
  ((val &&& 0xFF00) >>> 8) ||| ((val &&& 0x00FF) <<< 8)

/-- `swap32` (s7comm_plugin.cpp:125): 32-bit byte swap. -/
def swap32 (val : Nat) : Nat :=
  ((val &&& 0xFF000000) >>> 24) |||
  ((val &&& 0x00FF0000) >>> 8) |||
  ((val &&& 0x0000FF00) <<< 8) |||
  ((val &&& 0x000000FF) <<< 24)

/-- `swap64` (s7comm_plugin.cpp:133): 64-bit byte swap. -/
def swap64 (val : Nat) : Nat :=
  ((val &&& 0xFF00000000000000) >>> 56) |||
  ((val &&& 0x00FF000000000000) >>> 40) |||
  ((val &&& 0x0000FF0000000000) >>> 24) |||
  ((val &&& 0x000000FF00000000) >>> 8) |||
  ((val &&& 0x00000000FF000000) <<< 8) |||
  ((val &&& 0x0000000000FF0000) <<< 24) |||
  ((val &&& 0x000000000000FF00) <<< 40) |||
  ((val &&& 0x00000000000000FF) <<< 56)

/-- `get_type_size` (s7comm_plugin.cpp:696): bytes per element of a mapping
type (1 for bool groups and, by the switch default, for byte). -/
def get_type_size (type : s7comm_buffer_type_t) : Nat :=
  match type with
  | .bool_input | .bool_output | .bool_memory => 1
  | .int_input | .int_output | .int_memory => 2
  | .dint_input | .dint_output | .dint_memory => 4
  | .lint_input | .lint_output | .lint_memory => 8
  | _ => 1

/-- `map_to_journal_type` (s7comm_plugin.cpp:644): the journal buffer-type
code for a mapping type; `-1` (invalid) for types the switch does not list -
notably the byte families. -/
def map_to_journal_type (type : s7comm_buffer_type_t) : Int :=
  match type with
  | .bool_input => 0
  | .bool_output => 1
  | .bool_memory => 2
  | .int_input => 5
  | .int_output => 6
  | .int_memory => 7
  | .dint_input => 8
  | .dint_output => 9
  | .dint_memory => 10
  | .lint_input => 11
  | .lint_output => 12
  | .lint_memory => 13
  | _ => -1

/-- `s7comm_db_runtime_t`: one configured data block. -/
structure s7comm_db_runtime_t where
  db_number : Int
  type : s7comm_buffer_type_t
  start_buffer : Nat
  size_bytes : Nat
  bit_addressing : Bool

/-- `s7comm_area_runtime_t`: one system area (PE, PA or MK). -/
structure s7comm_area_runtime_t where
  enabled : Bool
  size_bytes : Nat
  type : s7comm_buffer_type_t
  start_buffer : Nat

/-- `find_db_runtime` (s7comm_plugin.cpp:666): first configured data block
with the requested DB number. -/
def find_db_runtime (dbs : List s7comm_db_runtime_t) (db_number : Int) :
    Option s7comm_db_runtime_t :=
  dbs.find? (fun db => db.db_number == db_number)

/-- Snap7 server area codes (s7_server.h, vendored Snap7 sources). -/
def srvAreaPE : Nat := 0

/-- Snap7 server area code for process outputs. -/
def srvAreaPA : Nat := 1

/-- Snap7 server area code for merkers. -/
def srvAreaMK : Nat := 2

/-- Snap7 server area code for data blocks. -/
def srvAreaDB : Nat := 5

/-- Snap7 RWArea operation code for a client read (s7_server.h). -/
def OperationRead : Nat := 0

/-- Snap7 RWArea operation code for a client write (s7_server.h). -/
def OperationWrite : Nat := 1

/-- `find_area_runtime` (s7comm_plugin.cpp:679): the enabled system area for
an S7 area code, if configured. -/
def find_area_runtime (pe pa mk : s7comm_area_runtime_t) (area : Nat) :
    Option s7comm_area_runtime_t :=
  if area = srvAreaPE then (if pe.enabled then some pe else none)
  else if area = srvAreaPA then (if pa.enabled then some pa else none)
  else if area = srvAreaMK then (if mk.enabled then some mk else none)
  else none

/-- `TS7Tag` (s7_server.h): the addressed slice of an RWArea callback. -/
structure TS7Tag where
  Area : Nat
  DBNumber : Int
  Start : Nat
  Size : Nat

/-- A host-little-endian store of the `width`-byte value `w` at element
index `i` of a byte buffer (the C code casts the buffer to
`uint16_t* / uint32_t* / uint64_t*`; the supported hosts are
little-endian). -/
def store_le (width : Nat) (dest : Nat → Nat) (i w : Nat) : Nat → Nat :=
  fun k => if width * i ≤ k ∧ k < width * i + width
           then w / 256 ^ (k - width * i) % 256
           else dest k

/-- A host-little-endian load of the `width`-byte element at index `i` of a
byte buffer. -/
def load_le (width : Nat) (src : Nat → Nat) (i : Nat) : Nat :=
  (List.range width).foldl (fun acc k => acc + src (width * i + k) % 256 * 256 ^ k) 0

/-- `read_openplc_bool_to_buffer` (s7comm_plugin.cpp:735): bit-pack each
group of eight bool cells into one byte of the destination (an unbound or
false cell contributes a 0 bit); called with the image mutex held. -/
def read_openplc_bool_to_buffer (bufSize : Nat) (img : ImageTables) (dest : Nat → Nat)
    (size : Nat) (type : s7comm_buffer_type_t) (start_buffer : Nat) : Nat → Nat :=
  if type = .bool_input ∨ type = .bool_output ∨ type = .bool_memory then
    let max_bytes := min (bufSize - start_buffer) size
    (List.range max_bytes).foldl (fun d byte_idx =>
      let plc_idx := start_buffer + byte_idx
      let byte_val := (List.range 8).foldl (fun b bit_idx =>
        match img ⟨s7_family type, plc_idx, bit_idx⟩ with
        | some v => if v ≠ 0 then b ||| (1 <<< bit_idx) else b
        | none => b) 0
      fun k => if k = byte_idx then byte_val else d k) dest
  else dest

/-- `read_openplc_int_to_buffer` (s7comm_plugin.cpp:772): copy each bound
16-bit cell of the addressed slice, byte-swapped to big-endian, into the
destination word array; unbound cells leave the destination word as it
was; called with the image mutex held. -/
def read_openplc_int_to_buffer (bufSize : Nat) (img : ImageTables) (dest : Nat → Nat)
    (size : Nat) (type : s7comm_buffer_type_t) (start_buffer : Nat) : Nat → Nat :=
  if type = .int_input ∨ type = .int_output ∨ type = .int_memory then
    let num_words := size / 2
    let max_words := min (bufSize - start_buffer) num_words
    (List.range max_words).foldl (fun d i =>
      match img ⟨s7_family type, start_buffer + i, 0⟩ with
      | some v => store_le 2 d i (swap16 (v % UINT16_MOD))
      | none => d) dest
  else dest

/-- `read_openplc_dint_to_buffer` (s7comm_plugin.cpp:806): as for int, with
32-bit cells and `swap32`. -/
def read_openplc_dint_to_buffer (bufSize : Nat) (img : ImageTables) (dest : Nat → Nat)
    (size : Nat) (type : s7comm_buffer_type_t) (start_buffer : Nat) : Nat → Nat :=
  if type = .dint_input ∨ type = .dint_output ∨ type = .dint_memory then
    let num_dwords := size / 4
    let max_dwords := min (bufSize - start_buffer) num_dwords
    (List.range max_dwords).foldl (fun d i =>
      match img ⟨s7_family type, start_buffer + i, 0⟩ with
      | some v => store_le 4 d i (swap32 (v % UINT32_MOD))
      | none => d) dest
  else dest

/-- `read_openplc_lint_to_buffer` (s7comm_plugin.cpp:840): as for int, with
64-bit cells and `swap64`. -/
def read_openplc_lint_to_buffer (bufSize : Nat) (img : ImageTables) (dest : Nat → Nat)
    (size : Nat) (type : s7comm_buffer_type_t) (start_buffer : Nat) : Nat → Nat :=
  if type = .lint_input ∨ type = .lint_output ∨ type = .lint_memory then
    let num_lwords := size / 8
    let max_lwords := min (bufSize - start_buffer) num_lwords
    (List.range max_lwords).foldl (fun d i =>
      match img ⟨s7_family type, start_buffer + i, 0⟩ with
      | some v => store_le 8 d i (swap64 (v % UINT64_MOD))
      | none => d) dest
  else dest

/-- `read_openplc_to_buffer` (s7comm_plugin.cpp:874): dispatch on the
mapping type. -/
def read_openplc_to_buffer (bufSize : Nat) (img : ImageTables) (dest : Nat → Nat)
    (size : Nat) (type : s7comm_buffer_type_t) (start_buffer : Nat) : Nat → Nat :=
  match type with
  | .bool_input | .bool_output | .bool_memory =>
      read_openplc_bool_to_buffer bufSize img dest size type start_buffer
  | .int_input | .int_output | .int_memory =>
      read_openplc_int_to_buffer bufSize img dest size type start_buffer
  | .dint_input | .dint_output | .dint_memory =>
      read_openplc_dint_to_buffer bufSize img dest size type start_buffer
  | .lint_input | .lint_output | .lint_memory =>
      read_openplc_lint_to_buffer bufSize img dest size type start_buffer
  | .byte_input | .byte_output => dest

/-- `write_bool_to_openplc_journal` (s7comm_plugin.cpp:917): split the
written slice into per-bit journal writes. -/
def write_bool_to_openplc_journal (bufSize : Nat) (st : ImageTables × JournalState)
    (src : Nat → Nat) (size : Nat) (type : s7comm_buffer_type_t) (start_buffer : Nat) :
    ImageTables × JournalState :=
  let journal_type := map_to_journal_type type
  if journal_type < 0 then st
  else
    let max_bytes := min (bufSize - start_buffer) size
    (List.range max_bytes).foldl (fun s byte_idx =>
      let byte_val := src byte_idx % 256
      let plc_idx := start_buffer + byte_idx
      (List.range 8).foldl (fun s2 bit_idx =>
        let bit_val := (byte_val >>> bit_idx) &&& 1
        (journal_write_bool bufSize s2.1 s2.2 journal_type.toNat plc_idx bit_idx
          (bit_val != 0)).2) s) st

/-- `write_int_to_openplc_journal` (s7comm_plugin.cpp:938): per-word journal
writes, byte-swapped from the big-endian wire form. -/
def write_int_to_openplc_journal (bufSize : Nat) (st : ImageTables × JournalState)
    (src : Nat → Nat) (size : Nat) (type : s7comm_buffer_type_t) (start_buffer : Nat) :
    ImageTables × JournalState :=
  let journal_type := map_to_journal_type type
  if journal_type < 0 then st
  else
    let num_words := size / 2
    let max_words := min (bufSize - start_buffer) num_words
    (List.range max_words).foldl (fun s i =>
      let value := swap16 (load_le 2 src i)
      (journal_write_int bufSize s.1 s.2 journal_type.toNat (start_buffer + i) value).2) st

/-- `write_dint_to_openplc_journal` (s7comm_plugin.cpp:957). -/
def write_dint_to_openplc_journal (bufSize : Nat) (st : ImageTables × JournalState)
    (src : Nat → Nat) (size : Nat) (type : s7comm_buffer_type_t) (start_buffer : Nat) :
    ImageTables × JournalState :=
  let journal_type := map_to_journal_type type
  if journal_type < 0 then st
  else
    let num_dwords := size / 4
    let max_dwords := min (bufSize - start_buffer) num_dwords
    (List.range max_dwords).foldl (fun s i =>
      let value := swap32 (load_le 4 src i)
      (journal_write_dint bufSize s.1 s.2 journal_type.toNat (start_buffer + i) value).2) st

/-- `write_lint_to_openplc_journal` (s7comm_plugin.cpp:976). -/
def write_lint_to_openplc_journal (bufSize : Nat) (st : ImageTables × JournalState)
    (src : Nat → Nat) (size : Nat) (type : s7comm_buffer_type_t) (start_buffer : Nat) :
    ImageTables × JournalState :=
  let journal_type := map_to_journal_type type
  if journal_type < 0 then st
  else
    let num_lwords := size / 8
    let max_lwords := min (bufSize - start_buffer) num_lwords
    (List.range max_lwords).foldl (fun s i =>
      let value := swap64 (load_le 8 src i)
      (journal_write_lint bufSize s.1 s.2 journal_type.toNat (start_buffer + i) value).2) st

/-- `write_buffer_to_openplc_journal` (s7comm_plugin.cpp:995): dispatch on
the mapping type. -/
def write_buffer_to_openplc_journal (bufSize : Nat) (st : ImageTables × JournalState)
    (src : Nat → Nat) (size : Nat) (type : s7comm_buffer_type_t) (start_buffer : Nat) :
    ImageTables × JournalState :=
  match type with
  | .bool_input | .bool_output | .bool_memory =>
      write_bool_to_openplc_journal bufSize st src size type start_buffer
  | .int_input | .int_output | .int_memory =>
      write_int_to_openplc_journal bufSize st src size type start_buffer
  | .dint_input | .dint_output | .dint_memory =>
      write_dint_to_openplc_journal bufSize st src size type start_buffer
  | .lint_input | .lint_output | .lint_memory =>
      write_lint_to_openplc_journal bufSize st src size type start_buffer
  | .byte_input | .byte_output => st

/-- Image-mutex events the RWArea callback performs, in order. -/
inductive S7CbEvent where
  | mutex_take
  | mutex_give
deriving DecidableEq

/-- What one RWArea callback invocation produces: its return code, the
caller-provided data buffer afterwards, the shared (image, journal) state
afterwards, and the image-mutex events it performed, in order. -/
structure S7CbResult where
  result : Int
  buf : Nat → Nat
  state : ImageTables × JournalState
  events : List S7CbEvent

/-- `s7comm_rw_area_callback` (s7comm_plugin.cpp:1056): which mapping
(type, plc start element) the addressed tag denotes - the configured data
block with the requested number for area DB, the enabled system area for
PE/PA/MK. -/
def s7comm_resolve_mapping (dbs : List s7comm_db_runtime_t)
    (pe pa mk : s7comm_area_runtime_t) (tag : TS7Tag) :
    Option (s7comm_buffer_type_t × Nat) :=
  if tag.Area = srvAreaDB then
    match find_db_runtime dbs tag.DBNumber with
    | none => none
    | some db => some (db.type, db.start_buffer + tag.Start / get_type_size db.type)
  else
    match find_area_runtime pe pa mk tag.Area with
    | none => none
    | some area => some (area.type, area.start_buffer + tag.Start / get_type_size area.type)

/-- `s7comm_rw_area_callback` (s7comm_plugin.cpp:1047): reject a NULL data
pointer; resolve the addressed area (an unconfigured area is left to Snap7's
registered buffer, returning 0 untouched); on a read, take the image mutex,
transcode the addressed slice into the caller's buffer, release the mutex
and accept; on a write, emit journal writes without taking the image mutex
and accept. -/
def s7comm_rw_area_callback (bufSize : Nat) (dbs : List s7comm_db_runtime_t)
    (pe pa mk : s7comm_area_runtime_t) (st : ImageTables × JournalState)
    (Operation : Nat) (tag : TS7Tag) (pUsrData_null : Bool) (buf : Nat → Nat) : S7CbResult :=
  if pUsrData_null then ⟨-1, buf, st, []⟩
  else
    match s7comm_resolve_mapping dbs pe pa mk tag with
    | none => ⟨0, buf, st, []⟩
    | some (type, start_buffer) =>
      if Operation = OperationRead then
        ⟨0, read_openplc_to_buffer bufSize st.1 buf tag.Size type start_buffer, st,
         [S7CbEvent.mutex_take, S7CbEvent.mutex_give]⟩
      else if Operation = OperationWrite then
        ⟨0, buf, write_buffer_to_openplc_journal bufSize st buf tag.Size type start_buffer, []⟩
      else ⟨0, buf, st, []⟩

/-! ### Arithmetic facts about the byte swaps -/

theorem nat_or_div_two_pow (a b n : Nat) : (a ||| b) / 2 ^ n = a / 2 ^ n ||| b / 2 ^ n := by
  induction n with
  | zero => simp
  | succ n ih =>
    rw [pow_succ, ← Nat.div_div_eq_div_mul, ih, Nat.or_div_two,
      Nat.div_div_eq_div_mul, Nat.div_div_eq_div_mul]

theorem nat_and_div_two_pow (a b n : Nat) : (a &&& b) / 2 ^ n = a / 2 ^ n &&& b / 2 ^ n := by
  induction n with
  | zero => simp
  | succ n ih =>
    rw [pow_succ, ← Nat.div_div_eq_div_mul, ih, Nat.and_div_two,
      Nat.div_div_eq_div_mul, Nat.div_div_eq_div_mul]

theorem nat_or_mod_two_pow (a b n : Nat) : (a ||| b) % 2 ^ n = a % 2 ^ n ||| b % 2 ^ n := by
  rw [← Nat.and_pow_two_sub_one_eq_mod, ← Nat.and_pow_two_sub_one_eq_mod,
    ← Nat.and_pow_two_sub_one_eq_mod, Nat.and_distrib_right]

theorem nat_and_mod_two_pow (a b n : Nat) : (a &&& b) % 2 ^ n = a % 2 ^ n &&& b % 2 ^ n := by
  rw [← Nat.and_pow_two_sub_one_eq_mod, ← Nat.and_pow_two_sub_one_eq_mod,
    ← Nat.and_pow_two_sub_one_eq_mod, Nat.and_assoc, Nat.and_assoc]
  congr 1
  rw [← Nat.and_assoc, Nat.and_comm (2 ^ n - 1) b, Nat.and_assoc, Nat.and_self]

theorem nat_mul_pow_or_eq_add : ∀ (k a b : Nat), b < 2 ^ k → a * 2 ^ k ||| b = a * 2 ^ k + b := by
  intro k
  induction k with
  | zero =>
    intro a b hb
    rw [pow_zero] at hb ⊢
    have hb0 : b = 0 := by omega
    subst hb0
    simp
  | succ k ih =>
    intro a b hb
    rw [pow_succ] at hb ⊢
    rw [← Nat.mul_assoc]
    have hmod : (a * 2 ^ k * 2 ||| b) % 2 = b % 2 := by
      have h := nat_or_mod_two_pow (a * 2 ^ k * 2) b 1
      rw [pow_one] at h
      rw [h, Nat.mul_mod_left, Nat.zero_or]
    have hdiv : (a * 2 ^ k * 2 ||| b) / 2 = a * 2 ^ k + b / 2 := by
      rw [Nat.or_div_two, Nat.mul_div_cancel _ (by norm_num : (0:Nat) < 2)]
      exact ih a (b / 2) (by omega)
    have key : (a * 2 ^ k * 2 ||| b)
        = 2 * ((a * 2 ^ k * 2 ||| b) / 2) + (a * 2 ^ k * 2 ||| b) % 2 :=
      (Nat.div_add_mod _ 2).symm
    rw [hdiv, hmod] at key
    rw [key]
    generalize a * 2 ^ k = C
    omega

theorem nat_or_mul_eq_add_pow (k a b : Nat) (hb : b < 2 ^ k) :
    b ||| a * 2 ^ k = b + a * 2 ^ k := by
  rw [Nat.lor_comm, nat_mul_pow_or_eq_add k a b hb, Nat.add_comm]

theorem nat_or_two_pow (k b : Nat) (hb : b < 2 ^ k) : b ||| 2 ^ k = b + 2 ^ k := by
  have h := nat_or_mul_eq_add_pow k 1 b hb
  rw [one_mul] at h
  exact h

/-- The byte of `u` at bit offset `m`, isolated by the mask `0xFF << m`. -/
theorem byte_mask_eq (u m : Nat) : u &&& 0xFF * 2 ^ m = u / 2 ^ m % 256 * 2 ^ m := by
  have hdiv : (u &&& 0xFF * 2 ^ m) / 2 ^ m = u / 2 ^ m % 256 := by
    rw [nat_and_div_two_pow, Nat.mul_div_cancel _ (Nat.two_pow_pos m),
      show (0xFF : Nat) = 2 ^ 8 - 1 from by norm_num, Nat.and_pow_two_sub_one_eq_mod]
  have hmod : (u &&& 0xFF * 2 ^ m) % 2 ^ m = 0 := by
    rw [nat_and_mod_two_pow, Nat.mul_mod_left, Nat.and_zero]
  have hx := Nat.div_add_mod (u &&& 0xFF * 2 ^ m) (2 ^ m)
  rw [hdiv, hmod] at hx
  rw [← hx, Nat.add_zero]
  exact Nat.mul_comm _ _

theorem pow2_8 : (2 : Nat) ^ 8 = 256 := by norm_num

theorem pow2_16 : (2 : Nat) ^ 16 = 65536 := by norm_num

theorem pow2_24 : (2 : Nat) ^ 24 = 16777216 := by norm_num

theorem pow2_32 : (2 : Nat) ^ 32 = 4294967296 := by norm_num

theorem pow2_40 : (2 : Nat) ^ 40 = 1099511627776 := by norm_num

theorem pow2_48 : (2 : Nat) ^ 48 = 281474976710656 := by norm_num

theorem pow2_56 : (2 : Nat) ^ 56 = 72057594037927936 := by norm_num

theorem nat_or_mul_256 (a b : Nat) (hb : b < 256) : b ||| a * 256 = b + a * 256 := by
  have h := nat_or_mul_eq_add_pow 8 a b (by rw [pow2_8]; exact hb)
  rw [pow2_8] at h
  exact h

theorem nat_or_mul_65536 (a b : Nat) (hb : b < 65536) : b ||| a * 65536 = b + a * 65536 := by
  have h := nat_or_mul_eq_add_pow 16 a b (by rw [pow2_16]; exact hb)
  rw [pow2_16] at h
  exact h

theorem nat_or_mul_16777216 (a b : Nat) (hb : b < 16777216) :
    b ||| a * 16777216 = b + a * 16777216 := by
  have h := nat_or_mul_eq_add_pow 24 a b (by rw [pow2_24]; exact hb)
  rw [pow2_24] at h
  exact h

theorem nat_or_mul_4294967296 (a b : Nat) (hb : b < 4294967296) :
    b ||| a * 4294967296 = b + a * 4294967296 := by
  have h := nat_or_mul_eq_add_pow 32 a b (by rw [pow2_32]; exact hb)
  rw [pow2_32] at h
  exact h

theorem nat_or_mul_1099511627776 (a b : Nat) (hb : b < 1099511627776) :
    b ||| a * 1099511627776 = b + a * 1099511627776 := by
  have h := nat_or_mul_eq_add_pow 40 a b (by rw [pow2_40]; exact hb)
  rw [pow2_40] at h
  exact h

theorem nat_or_mul_281474976710656 (a b : Nat) (hb : b < 281474976710656) :
    b ||| a * 281474976710656 = b + a * 281474976710656 := by
  have h := nat_or_mul_eq_add_pow 48 a b (by rw [pow2_48]; exact hb)
  rw [pow2_48] at h
  exact h

theorem nat_or_mul_72057594037927936 (a b : Nat) (hb : b < 72057594037927936) :
    b ||| a * 72057594037927936 = b + a * 72057594037927936 := by
  have h := nat_or_mul_eq_add_pow 56 a b (by rw [pow2_56]; exact hb)
  rw [pow2_56] at h
  exact h

/-- `swap16` as plain arithmetic: the wire bytes of a 16-bit value, low
wire byte (= the value's most significant byte) first. -/
theorem swap16_eq_sum (u : Nat) : swap16 u = u / 256 % 256 + u % 256 * 256 := by
  have h1 : u &&& 0xFF00 = u / 256 % 256 * 256 := by
    have h := byte_mask_eq u 8
    norm_num at h
    exact h
  have h0 : u &&& 0x00FF = u % 256 := by
    have h := byte_mask_eq u 0
    norm_num at h
    exact h
  have e1 : (u &&& 0xFF00) >>> 8 = u / 256 % 256 := by
    rw [h1, Nat.shiftRight_eq_div_pow, pow2_8]
    omega
  have e0 : (u &&& 0x00FF) <<< 8 = u % 256 * 256 := by
    rw [h0, Nat.shiftLeft_eq, pow2_8]
  unfold swap16
  rw [e1, e0, nat_or_mul_256 (u % 256) (u / 256 % 256) (Nat.mod_lt _ (by norm_num))]

/-- `swap32` as plain arithmetic: the wire bytes of a 32-bit value, low
wire byte (= the value's most significant byte) first. -/
theorem swap32_eq_sum (u : Nat) :
    swap32 u = u / 16777216 % 256 + u / 65536 % 256 * 256
      + u / 256 % 256 * 65536 + u % 256 * 16777216 := by
  have h3 : u &&& 0xFF000000 = u / 16777216 % 256 * 16777216 := by
    have h := byte_mask_eq u 24
    norm_num at h
    exact h
  have h2 : u &&& 0x00FF0000 = u / 65536 % 256 * 65536 := by
    have h := byte_mask_eq u 16
    norm_num at h
    exact h
  have h1 : u &&& 0x0000FF00 = u / 256 % 256 * 256 := by
    have h := byte_mask_eq u 8
    norm_num at h
    exact h
  have h0 : u &&& 0x000000FF = u % 256 := by
    have h := byte_mask_eq u 0
    norm_num at h
    exact h
  have e3 : (u &&& 0xFF000000) >>> 24 = u / 16777216 % 256 := by
    rw [h3, Nat.shiftRight_eq_div_pow, pow2_24]
    omega
  have e2 : (u &&& 0x00FF0000) >>> 8 = u / 65536 % 256 * 256 := by
    rw [h2, Nat.shiftRight_eq_div_pow, pow2_8]
    omega
  have e1 : (u &&& 0x0000FF00) <<< 8 = u / 256 % 256 * 65536 := by
    rw [h1, Nat.shiftLeft_eq, pow2_8]
    omega
  have e0 : (u &&& 0x000000FF) <<< 24 = u % 256 * 16777216 := by
    rw [h0, Nat.shiftLeft_eq, pow2_24]
  unfold swap32
  rw [e3, e2, e1, e0]
  rw [nat_or_mul_256 (u / 65536 % 256) (u / 16777216 % 256) (Nat.mod_lt _ (by norm_num))]
  rw [nat_or_mul_65536 (u / 256 % 256)
    (u / 16777216 % 256 + u / 65536 % 256 * 256) (by omega)]
  rw [nat_or_mul_16777216 (u % 256)
    (u / 16777216 % 256 + u / 65536 % 256 * 256 + u / 256 % 256 * 65536) (by omega)]

/-- `swap64` as plain arithmetic: the wire bytes of a 64-bit value, low
wire byte (= the value's most significant byte) first. -/
theorem swap64_eq_sum (u : Nat) :
    swap64 u = u / 72057594037927936 % 256 + u / 281474976710656 % 256 * 256
      + u / 1099511627776 % 256 * 65536 + u / 4294967296 % 256 * 16777216
      + u / 16777216 % 256 * 4294967296 + u / 65536 % 256 * 1099511627776
      + u / 256 % 256 * 281474976710656 + u % 256 * 72057594037927936 := by
  have h7 : u &&& 0xFF00000000000000 = u / 72057594037927936 % 256 * 72057594037927936 := by
    have h := byte_mask_eq u 56
    norm_num at h
    exact h
  have h6 : u &&& 0x00FF000000000000 = u / 281474976710656 % 256 * 281474976710656 := by
    have h := byte_mask_eq u 48
    norm_num at h
    exact h
  have h5 : u &&& 0x0000FF0000000000 = u / 1099511627776 % 256 * 1099511627776 := by
    have h := byte_mask_eq u 40
    norm_num at h
    exact h
  have h4 : u &&& 0x000000FF00000000 = u / 4294967296 % 256 * 4294967296 := by
    have h := byte_mask_eq u 32
    norm_num at h
    exact h
  have h3 : u &&& 0x00000000FF000000 = u / 16777216 % 256 * 16777216 := by
    have h := byte_mask_eq u 24
    norm_num at h
    exact h
  have h2 : u &&& 0x0000000000FF0000 = u / 65536 % 256 * 65536 := by
    have h := byte_mask_eq u 16
    norm_num at h
    exact h
  have h1 : u &&& 0x000000000000FF00 = u / 256 % 256 * 256 := by
    have h := byte_mask_eq u 8
    norm_num at h
    exact h
  have h0 : u &&& 0x00000000000000FF = u % 256 := by
    have h := byte_mask_eq u 0
    norm_num at h
    exact h
  have e7 : (u &&& 0xFF00000000000000) >>> 56 = u / 72057594037927936 % 256 := by
    rw [h7, Nat.shiftRight_eq_div_pow, pow2_56]
    omega
  have e6 : (u &&& 0x00FF000000000000) >>> 40 = u / 281474976710656 % 256 * 256 := by
    rw [h6, Nat.shiftRight_eq_div_pow, pow2_40]
    omega
  have e5 : (u &&& 0x0000FF0000000000) >>> 24 = u / 1099511627776 % 256 * 65536 := by
    rw [h5, Nat.shiftRight_eq_div_pow, pow2_24]
    omega
  have e4 : (u &&& 0x000000FF00000000) >>> 8 = u / 4294967296 % 256 * 16777216 := by
    rw [h4, Nat.shiftRight_eq_div_pow, pow2_8]
    omega
  have e3 : (u &&& 0x00000000FF000000) <<< 8 = u / 16777216 % 256 * 4294967296 := by
    rw [h3, Nat.shiftLeft_eq, pow2_8]
    omega
  have e2 : (u &&& 0x0000000000FF0000) <<< 24 = u / 65536 % 256 * 1099511627776 := by
    rw [h2, Nat.shiftLeft_eq, pow2_24]
    omega
  have e1 : (u &&& 0x000000000000FF00) <<< 40 = u / 256 % 256 * 281474976710656 := by
    rw [h1, Nat.shiftLeft_eq, pow2_40]
    omega
  have e0 : (u &&& 0x00000000000000FF) <<< 56 = u % 256 * 72057594037927936 := by
    rw [h0, Nat.shiftLeft_eq, pow2_56]
  unfold swap64
  rw [e7, e6, e5, e4, e3, e2, e1, e0]
  rw [nat_or_mul_256 (u / 281474976710656 % 256)
    (u / 72057594037927936 % 256) (Nat.mod_lt _ (by norm_num))]
  rw [nat_or_mul_65536 (u / 1099511627776 % 256)
    (u / 72057594037927936 % 256 + u / 281474976710656 % 256 * 256) (by omega)]
  rw [nat_or_mul_16777216 (u / 4294967296 % 256)
    (u / 72057594037927936 % 256 + u / 281474976710656 % 256 * 256
      + u / 1099511627776 % 256 * 65536) (by omega)]
  rw [nat_or_mul_4294967296 (u / 16777216 % 256)
    (u / 72057594037927936 % 256 + u / 281474976710656 % 256 * 256
      + u / 1099511627776 % 256 * 65536 + u / 4294967296 % 256 * 16777216) (by omega)]
  rw [nat_or_mul_1099511627776 (u / 65536 % 256)
    (u / 72057594037927936 % 256 + u / 281474976710656 % 256 * 256
      + u / 1099511627776 % 256 * 65536 + u / 4294967296 % 256 * 16777216
      + u / 16777216 % 256 * 4294967296) (by omega)]
  rw [nat_or_mul_281474976710656 (u / 256 % 256)
    (u / 72057594037927936 % 256 + u / 281474976710656 % 256 * 256
      + u / 1099511627776 % 256 * 65536 + u / 4294967296 % 256 * 16777216
      + u / 16777216 % 256 * 4294967296 + u / 65536 % 256 * 1099511627776) (by omega)]
  rw [nat_or_mul_72057594037927936 (u % 256)
    (u / 72057594037927936 % 256 + u / 281474976710656 % 256 * 256
      + u / 1099511627776 % 256 * 65536 + u / 4294967296 % 256 * 16777216
      + u / 16777216 % 256 * 4294967296 + u / 65536 % 256 * 1099511627776
      + u / 256 % 256 * 281474976710656) (by omega)]

theorem two_digits (b1 b0 : Nat) (h1 : b1 < 256) (h0 : b0 < 256) :
    (b1 + b0 * 256) % 256 = b1 ∧ (b1 + b0 * 256) / 256 % 256 = b0 := by
  have e1 : (b1 + b0 * 256) / 256 = b0 := by omega
  refine ⟨by omega, ?_⟩
  rw [e1]
  omega

theorem four_digits (b3 b2 b1 b0 : Nat) (h3 : b3 < 256) (h2 : b2 < 256) (h1 : b1 < 256)
    (h0 : b0 < 256) :
    (b3 + b2 * 256 + b1 * 65536 + b0 * 16777216) % 256 = b3
    ∧ (b3 + b2 * 256 + b1 * 65536 + b0 * 16777216) / 256 % 256 = b2
    ∧ (b3 + b2 * 256 + b1 * 65536 + b0 * 16777216) / 65536 % 256 = b1
    ∧ (b3 + b2 * 256 + b1 * 65536 + b0 * 16777216) / 16777216 % 256 = b0 := by
  have e1 : (b3 + b2 * 256 + b1 * 65536 + b0 * 16777216) / 256
      = b2 + b1 * 256 + b0 * 65536 := by omega
  have e2 : (b3 + b2 * 256 + b1 * 65536 + b0 * 16777216) / 65536
      = b1 + b0 * 256 := by omega
  have e3 : (b3 + b2 * 256 + b1 * 65536 + b0 * 16777216) / 16777216 = b0 := by omega
  refine ⟨by omega, ?_, ?_, ?_⟩
  · rw [e1]
    omega
  · rw [e2]
    omega
  · rw [e3]
    omega

theorem eight_digits (b7 b6 b5 b4 b3 b2 b1 b0 : Nat)
    (h7 : b7 < 256) (h6 : b6 < 256) (h5 : b5 < 256) (h4 : b4 < 256)
    (h3 : b3 < 256) (h2 : b2 < 256) (h1 : b1 < 256) (h0 : b0 < 256) :
    (b7 + b6 * 256 + b5 * 65536 + b4 * 16777216 + b3 * 4294967296
      + b2 * 1099511627776 + b1 * 281474976710656 + b0 * 72057594037927936) % 256 = b7
    ∧ (b7 + b6 * 256 + b5 * 65536 + b4 * 16777216 + b3 * 4294967296
      + b2 * 1099511627776 + b1 * 281474976710656 + b0 * 72057594037927936) / 256 % 256 = b6
    ∧ (b7 + b6 * 256 + b5 * 65536 + b4 * 16777216 + b3 * 4294967296
      + b2 * 1099511627776 + b1 * 281474976710656 + b0 * 72057594037927936) / 65536 % 256 = b5
    ∧ (b7 + b6 * 256 + b5 * 65536 + b4 * 16777216 + b3 * 4294967296
      + b2 * 1099511627776 + b1 * 281474976710656 + b0 * 72057594037927936)
        / 16777216 % 256 = b4
    ∧ (b7 + b6 * 256 + b5 * 65536 + b4 * 16777216 + b3 * 4294967296
      + b2 * 1099511627776 + b1 * 281474976710656 + b0 * 72057594037927936)
        / 4294967296 % 256 = b3
    ∧ (b7 + b6 * 256 + b5 * 65536 + b4 * 16777216 + b3 * 4294967296
      + b2 * 1099511627776 + b1 * 281474976710656 + b0 * 72057594037927936)
        / 1099511627776 % 256 = b2
    ∧ (b7 + b6 * 256 + b5 * 65536 + b4 * 16777216 + b3 * 4294967296
      + b2 * 1099511627776 + b1 * 281474976710656 + b0 * 72057594037927936)
        / 281474976710656 % 256 = b1
    ∧ (b7 + b6 * 256 + b5 * 65536 + b4 * 16777216 + b3 * 4294967296
      + b2 * 1099511627776 + b1 * 281474976710656 + b0 * 72057594037927936)
        / 72057594037927936 % 256 = b0 := by
  have e1 : (b7 + b6 * 256 + b5 * 65536 + b4 * 16777216 + b3 * 4294967296
      + b2 * 1099511627776 + b1 * 281474976710656 + b0 * 72057594037927936) / 256
      = b6 + b5 * 256 + b4 * 65536 + b3 * 16777216 + b2 * 4294967296
        + b1 * 1099511627776 + b0 * 281474976710656 := by omega
  have e2 : (b7 + b6 * 256 + b5 * 65536 + b4 * 16777216 + b3 * 4294967296
      + b2 * 1099511627776 + b1 * 281474976710656 + b0 * 72057594037927936) / 65536
      = b5 + b4 * 256 + b3 * 65536 + b2 * 16777216 + b1 * 4294967296
        + b0 * 1099511627776 := by omega
  have e3 : (b7 + b6 * 256 + b5 * 65536 + b4 * 16777216 + b3 * 4294967296
      + b2 * 1099511627776 + b1 * 281474976710656 + b0 * 72057594037927936) / 16777216
      = b4 + b3 * 256 + b2 * 65536 + b1 * 16777216 + b0 * 4294967296 := by omega
  have e4 : (b7 + b6 * 256 + b5 * 65536 + b4 * 16777216 + b3 * 4294967296
      + b2 * 1099511627776 + b1 * 281474976710656 + b0 * 72057594037927936) / 4294967296
      = b3 + b2 * 256 + b1 * 65536 + b0 * 16777216 := by omega
  have e5 : (b7 + b6 * 256 + b5 * 65536 + b4 * 16777216 + b3 * 4294967296
      + b2 * 1099511627776 + b1 * 281474976710656 + b0 * 72057594037927936) / 1099511627776
      = b2 + b1 * 256 + b0 * 65536 := by omega
  have e6 : (b7 + b6 * 256 + b5 * 65536 + b4 * 16777216 + b3 * 4294967296
      + b2 * 1099511627776 + b1 * 281474976710656 + b0 * 72057594037927936) / 281474976710656
      = b1 + b0 * 256 := by omega
  have e7 : (b7 + b6 * 256 + b5 * 65536 + b4 * 16777216 + b3 * 4294967296
      + b2 * 1099511627776 + b1 * 281474976710656 + b0 * 72057594037927936)
      / 72057594037927936 = b0 := by omega
  refine ⟨by omega, ?_, ?_, ?_, ?_, ?_, ?_, ?_⟩
  · rw [e1]
    omega
  · rw [e2]
    omega
  · rw [e3]
    omega
  · rw [e4]
    omega
  · rw [e5]
    omega
  · rw [e6]
    omega
  · rw [e7]
    omega

/-- The wire bytes a stored `swap16` word exposes: high byte of the value
first. -/
theorem swap16_wire (u : Nat) :
    swap16 u % 256 = u / 256 % 256 ∧ swap16 u / 256 % 256 = u % 256 := by
  rw [swap16_eq_sum]
  exact two_digits (u / 256 % 256) (u % 256)
    (Nat.mod_lt _ (by norm_num)) (Nat.mod_lt _ (by norm_num))

/-- The wire bytes a stored `swap32` dword exposes: most significant byte
of the value first. -/
theorem swap32_wire (u : Nat) :
    swap32 u % 256 = u / 16777216 % 256
    ∧ swap32 u / 256 % 256 = u / 65536 % 256
    ∧ swap32 u / 65536 % 256 = u / 256 % 256
    ∧ swap32 u / 16777216 % 256 = u % 256 := by
  rw [swap32_eq_sum]
  exact four_digits (u / 16777216 % 256) (u / 65536 % 256) (u / 256 % 256) (u % 256)
    (Nat.mod_lt _ (by norm_num)) (Nat.mod_lt _ (by norm_num))
    (Nat.mod_lt _ (by norm_num)) (Nat.mod_lt _ (by norm_num))

/-- The wire bytes a stored `swap64` lword exposes: most significant byte
of the value first. -/
theorem swap64_wire (u : Nat) :
    swap64 u % 256 = u / 72057594037927936 % 256
    ∧ swap64 u / 256 % 256 = u / 281474976710656 % 256
    ∧ swap64 u / 65536 % 256 = u / 1099511627776 % 256
    ∧ swap64 u / 16777216 % 256 = u / 4294967296 % 256
    ∧ swap64 u / 4294967296 % 256 = u / 16777216 % 256
    ∧ swap64 u / 1099511627776 % 256 = u / 65536 % 256
    ∧ swap64 u / 281474976710656 % 256 = u / 256 % 256
    ∧ swap64 u / 72057594037927936 % 256 = u % 256 := by
  rw [swap64_eq_sum]
  exact eight_digits (u / 72057594037927936 % 256) (u / 281474976710656 % 256)
    (u / 1099511627776 % 256) (u / 4294967296 % 256) (u / 16777216 % 256)
    (u / 65536 % 256) (u / 256 % 256) (u % 256)
    (Nat.mod_lt _ (by norm_num)) (Nat.mod_lt _ (by norm_num))
    (Nat.mod_lt _ (by norm_num)) (Nat.mod_lt _ (by norm_num))
    (Nat.mod_lt _ (by norm_num)) (Nat.mod_lt _ (by norm_num))
    (Nat.mod_lt _ (by norm_num)) (Nat.mod_lt _ (by norm_num))

/-! ### The store folds of the numeric readers, byte by byte -/

theorem store_le_at (width : Nat) (d : Nat → Nat) (i w k : Nat)
    (h1 : width * i ≤ k) (h2 : k < width * i + width) :
    store_le width d i w k = w / 256 ^ (k - width * i) % 256 := by
  simp [store_le, h1, h2]

theorem store_le_outside (width : Nat) (d : Nat → Nat) (i w k : Nat)
    (h : k < width * i ∨ width * i + width ≤ k) :
    store_le width d i w k = d k := by
  have hno : ¬(width * i ≤ k ∧ k < width * i + width) := by omega
  simp [store_le, hno]

theorem read_fold_untouched (width : Nat) (F : Nat → Nat) (img : ImageTables) (fam start : Nat) :
    ∀ (m : Nat) (d : Nat → Nat) (k : Nat), width * m ≤ k →
      ((List.range m).foldl (fun d i =>
          match img ⟨fam, start + i, 0⟩ with
          | some v => store_le width d i (F v)
          | none => d) d) k = d k := by
  intro m
  induction m with
  | zero => intro d k _; rfl
  | succ m ih =>
    intro d k hk
    rw [Nat.mul_succ] at hk
    rw [List.range_succ, List.foldl_append]
    simp only [List.foldl_cons, List.foldl_nil]
    cases hv : img ⟨fam, start + m, 0⟩ with
    | none => exact ih d k (by omega)
    | some v =>
      simp only []
      rw [store_le_outside width _ m _ k (by omega)]
      exact ih d k (by omega)

theorem read_fold_byte (width : Nat) (F : Nat → Nat) (img : ImageTables) (fam start : Nat) :
    ∀ (m : Nat) (d : Nat → Nat) (i j : Nat), i < m → j < width →
      ((List.range m).foldl (fun d i =>
          match img ⟨fam, start + i, 0⟩ with
          | some v => store_le width d i (F v)
          | none => d) d) (width * i + j)
        = match img ⟨fam, start + i, 0⟩ with
          | some v => F v / 256 ^ j % 256
          | none => d (width * i + j) := by
  intro m
  induction m with
  | zero => intro d i j h _; exact absurd h (by omega)
  | succ m ih =>
    intro d i j hi hj
    rw [List.range_succ, List.foldl_append]
    simp only [List.foldl_cons, List.foldl_nil]
    by_cases him : i = m
    · subst him
      cases hv : img ⟨fam, start + i, 0⟩ with
      | none =>
        simp only []
        exact read_fold_untouched width F img fam start i d (width * i + j) (by omega)
      | some v =>
        simp only []
        rw [store_le_at width _ i _ (width * i + j) (by omega) (by omega)]
        have hsub : width * i + j - width * i = j := by omega
        rw [hsub]
    · have hi2 : i < m := by omega
      have hmul : width * i + width ≤ width * m := by
        have h := Nat.mul_le_mul_left width (show i + 1 ≤ m from by omega)
        rw [Nat.mul_succ] at h
        exact h
      cases hv : img ⟨fam, start + m, 0⟩ with
      | none => exact ih d i j hi2 hj
      | some v =>
        simp only []
        rw [store_le_outside width _ m _ (width * i + j) (by omega)]
        exact ih d i j hi2 hj

/-! ### The bool reader's bit packing -/

/-- The spec's view of one packed bit: 1 when the bool cell is bound and
nonzero, else 0 (stated from the spec's wording, for comparison with
`read_openplc_bool_to_buffer`). -/
def spec_bit (img : ImageTables) (fam idx bit : Nat) : Nat :=
  match img ⟨fam, idx, bit⟩ with
  | some v => if v ≠ 0 then 1 else 0
  | none => 0

/-- The spec's wording of the bool transcoding - eight consecutive bool
cells of one PLC element bit-packed into one byte, bit 0 least significant
- as a plain sum, for comparison with the plugin's fold. -/
def spec_packed_byte (img : ImageTables) (fam idx : Nat) : Nat :=
  spec_bit img fam idx 0 + 2 * spec_bit img fam idx 1 + 4 * spec_bit img fam idx 2
    + 8 * spec_bit img fam idx 3 + 16 * spec_bit img fam idx 4 + 32 * spec_bit img fam idx 5
    + 64 * spec_bit img fam idx 6 + 128 * spec_bit img fam idx 7

theorem bool_pack_bound (img : ImageTables) (fam idx : Nat) :
    ∀ m : Nat, (List.range m).foldl (fun b bit_idx =>
        match img ⟨fam, idx, bit_idx⟩ with
        | some v => if v ≠ 0 then b ||| (1 <<< bit_idx) else b
        | none => b) 0 < 2 ^ m := by
  intro m
  induction m with
  | zero => norm_num
  | succ m ih =>
    rw [List.range_succ, List.foldl_append]
    simp only [List.foldl_cons, List.foldl_nil]
    have hmono : (2 : Nat) ^ m ≤ 2 ^ (m + 1) := Nat.pow_le_pow_right (by norm_num) (by omega)
    cases hv : img ⟨fam, idx, m⟩ with
    | none =>
      simp only []
      exact lt_of_lt_of_le ih hmono
    | some v =>
      simp only []
      by_cases hz : v ≠ 0
      · rw [if_pos hz, Nat.one_shiftLeft, nat_or_two_pow m _ ih, pow_succ]
        omega
      · rw [if_neg hz]
        exact lt_of_lt_of_le ih hmono

theorem bool_pack_sum (img : ImageTables) (fam idx : Nat) :
    ∀ m : Nat, (List.range m).foldl (fun b bit_idx =>
        match img ⟨fam, idx, bit_idx⟩ with
        | some v => if v ≠ 0 then b ||| (1 <<< bit_idx) else b
        | none => b) 0
      = (List.range m).foldl (fun acc t => acc + 2 ^ t * spec_bit img fam idx t) 0 := by
  intro m
  induction m with
  | zero => rfl
  | succ m ih =>
    rw [List.range_succ, List.foldl_append, List.foldl_append]
    simp only [List.foldl_cons, List.foldl_nil]
    cases hv : img ⟨fam, idx, m⟩ with
    | none =>
      have hsb : spec_bit img fam idx m = 0 := by
        unfold spec_bit
        rw [hv]
      simp only []
      rw [hsb, ih]
      simp
    | some v =>
      have hsb : spec_bit img fam idx m = if v ≠ 0 then 1 else 0 := by
        unfold spec_bit
        rw [hv]
      simp only []
      rw [hsb]
      by_cases hz : v ≠ 0
      · rw [if_pos hz, if_pos hz, Nat.one_shiftLeft,
          nat_or_two_pow m _ (bool_pack_bound img fam idx m), ih]
        simp
      · rw [if_neg hz, if_neg hz, ih]
        simp

theorem pack_sum_eight (img : ImageTables) (fam idx : Nat) :
    (List.range 8).foldl (fun acc t => acc + 2 ^ t * spec_bit img fam idx t) 0
      = spec_packed_byte img fam idx := by
  show List.foldl _ 0 [0, 1, 2, 3, 4, 5, 6, 7] = _
  simp only [List.foldl_cons, List.foldl_nil, spec_packed_byte]
  norm_num

theorem read_bool_fold_at (img : ImageTables) (fam start : Nat) :
    ∀ (m : Nat) (d : Nat → Nat) (i : Nat), i < m →
      ((List.range m).foldl (fun d byte_idx =>
          fun k => if k = byte_idx then
            (List.range 8).foldl (fun b bit_idx =>
              match img ⟨fam, start + byte_idx, bit_idx⟩ with
              | some v => if v ≠ 0 then b ||| (1 <<< bit_idx) else b
              | none => b) 0
          else d k) d) i
      = (List.range 8).foldl (fun b bit_idx =>
          match img ⟨fam, start + i, bit_idx⟩ with
          | some v => if v ≠ 0 then b ||| (1 <<< bit_idx) else b
          | none => b) 0 := by
  intro m
  induction m with
  | zero => intro d i h; exact absurd h (by omega)
  | succ m ih =>
    intro d i hi
    rw [show List.range (m + 1) = List.range m ++ [m] from List.range_succ m,
      List.foldl_append]
    simp only [List.foldl_cons, List.foldl_nil]
    by_cases him : i = m
    · subst him
      rw [if_pos rfl]
    · rw [if_neg him]
      exact ih d i (by omega)

/-! ### Per-family byte conclusions of the read path -/

theorem read_bool_bytes (bufSize : Nat) (img : ImageTables) (d : Nat → Nat) (size sb : Nat)
    (ty : s7comm_buffer_type_t)
    (hty : ty = .bool_input ∨ ty = .bool_output ∨ ty = .bool_memory)
    (b : Nat) (hb : b < min (bufSize - sb) size) :
    read_openplc_bool_to_buffer bufSize img d size ty sb b
      = spec_packed_byte img (s7_family ty) (sb + b) := by
  have hfold : read_openplc_bool_to_buffer bufSize img d size ty sb
      = (List.range (min (bufSize - sb) size)).foldl (fun d byte_idx =>
          fun k => if k = byte_idx then
            (List.range 8).foldl (fun bb bit_idx =>
              match img ⟨s7_family ty, sb + byte_idx, bit_idx⟩ with
              | some v => if v ≠ 0 then bb ||| (1 <<< bit_idx) else bb
              | none => bb) 0
          else d k) d := by
    unfold read_openplc_bool_to_buffer
    rw [if_pos hty]
  rw [hfold, read_bool_fold_at img (s7_family ty) sb (min (bufSize - sb) size) d b hb,
    bool_pack_sum img (s7_family ty) (sb + b) 8, pack_sum_eight]

theorem read_int_bytes (bufSize : Nat) (img : ImageTables) (d : Nat → Nat) (size sb : Nat)
    (ty : s7comm_buffer_type_t)
    (hty : ty = .int_input ∨ ty = .int_output ∨ ty = .int_memory)
    (i v : Nat) (hi : i < min (bufSize - sb) (size / 2))
    (hv : img ⟨s7_family ty, sb + i, 0⟩ = some v) :
    read_openplc_int_to_buffer bufSize img d size ty sb (2 * i) = v % UINT16_MOD / 2 ^ 8
    ∧ read_openplc_int_to_buffer bufSize img d size ty sb (2 * i + 1) = v % 2 ^ 8 := by
  have hfold : read_openplc_int_to_buffer bufSize img d size ty sb
      = (List.range (min (bufSize - sb) (size / 2))).foldl (fun d i =>
          match img ⟨s7_family ty, sb + i, 0⟩ with
          | some v => store_le 2 d i (swap16 (v % UINT16_MOD))
          | none => d) d := by
    unfold read_openplc_int_to_buffer
    rw [if_pos hty]
  have hg0 := read_fold_byte 2 (fun w => swap16 (w % UINT16_MOD)) img (s7_family ty) sb
    (min (bufSize - sb) (size / 2)) d i 0 hi (by norm_num)
  have hg1 := read_fold_byte 2 (fun w => swap16 (w % UINT16_MOD)) img (s7_family ty) sb
    (min (bufSize - sb) (size / 2)) d i 1 hi (by norm_num)
  rw [hv] at hg0 hg1
  simp only [] at hg0 hg1
  rw [Nat.add_zero] at hg0
  norm_num at hg0 hg1
  obtain ⟨w0, w1⟩ := swap16_wire (v % UINT16_MOD)
  rw [hfold, hg0, hg1, w0, w1]
  simp only [UINT16_MOD, pow2_8]
  omega

theorem read_dint_bytes (bufSize : Nat) (img : ImageTables) (d : Nat → Nat) (size sb : Nat)
    (ty : s7comm_buffer_type_t)
    (hty : ty = .dint_input ∨ ty = .dint_output ∨ ty = .dint_memory)
    (i v : Nat) (hi : i < min (bufSize - sb) (size / 4))
    (hv : img ⟨s7_family ty, sb + i, 0⟩ = some v) :
    read_openplc_dint_to_buffer bufSize img d size ty sb (4 * i) = v % UINT32_MOD / 2 ^ 24
    ∧ read_openplc_dint_to_buffer bufSize img d size ty sb (4 * i + 1)
        = v % UINT32_MOD / 2 ^ 16 % 256
    ∧ read_openplc_dint_to_buffer bufSize img d size ty sb (4 * i + 2)
        = v % UINT32_MOD / 2 ^ 8 % 256
    ∧ read_openplc_dint_to_buffer bufSize img d size ty sb (4 * i + 3) = v % 2 ^ 8 := by
  have hfold : read_openplc_dint_to_buffer bufSize img d size ty sb
      = (List.range (min (bufSize - sb) (size / 4))).foldl (fun d i =>
          match img ⟨s7_family ty, sb + i, 0⟩ with
          | some v => store_le 4 d i (swap32 (v % UINT32_MOD))
          | none => d) d := by
    unfold read_openplc_dint_to_buffer
    rw [if_pos hty]
  have hg0 := read_fold_byte 4 (fun w => swap32 (w % UINT32_MOD)) img (s7_family ty) sb
    (min (bufSize - sb) (size / 4)) d i 0 hi (by norm_num)
  have hg1 := read_fold_byte 4 (fun w => swap32 (w % UINT32_MOD)) img (s7_family ty) sb
    (min (bufSize - sb) (size / 4)) d i 1 hi (by norm_num)
  have hg2 := read_fold_byte 4 (fun w => swap32 (w % UINT32_MOD)) img (s7_family ty) sb
    (min (bufSize - sb) (size / 4)) d i 2 hi (by norm_num)
  have hg3 := read_fold_byte 4 (fun w => swap32 (w % UINT32_MOD)) img (s7_family ty) sb
    (min (bufSize - sb) (size / 4)) d i 3 hi (by norm_num)
  rw [hv] at hg0 hg1 hg2 hg3
  simp only [] at hg0 hg1 hg2 hg3
  rw [Nat.add_zero] at hg0
  norm_num at hg0 hg1 hg2 hg3
  obtain ⟨w0, w1, w2, w3⟩ := swap32_wire (v % UINT32_MOD)
  rw [hfold, hg0, hg1, hg2, hg3, w0, w1, w2, w3]
  simp only [UINT32_MOD, pow2_8, pow2_16, pow2_24]
  refine ⟨?_, ?_, ?_, ?_⟩ <;> first
    | trivial
    | omega

theorem read_lint_bytes (bufSize : Nat) (img : ImageTables) (d : Nat → Nat) (size sb : Nat)
    (ty : s7comm_buffer_type_t)
    (hty : ty = .lint_input ∨ ty = .lint_output ∨ ty = .lint_memory)
    (i v : Nat) (hi : i < min (bufSize - sb) (size / 8))
    (hv : img ⟨s7_family ty, sb + i, 0⟩ = some v) :
    read_openplc_lint_to_buffer bufSize img d size ty sb (8 * i) = v % UINT64_MOD / 2 ^ 56
    ∧ read_openplc_lint_to_buffer bufSize img d size ty sb (8 * i + 1)
        = v % UINT64_MOD / 2 ^ 48 % 256
    ∧ read_openplc_lint_to_buffer bufSize img d size ty sb (8 * i + 2)
        = v % UINT64_MOD / 2 ^ 40 % 256
    ∧ read_openplc_lint_to_buffer bufSize img d size ty sb (8 * i + 3)
        = v % UINT64_MOD / 2 ^ 32 % 256
    ∧ read_openplc_lint_to_buffer bufSize img d size ty sb (8 * i + 4)
        = v % UINT64_MOD / 2 ^ 24 % 256
    ∧ read_openplc_lint_to_buffer bufSize img d size ty sb (8 * i + 5)
        = v % UINT64_MOD / 2 ^ 16 % 256
    ∧ read_openplc_lint_to_buffer bufSize img d size ty sb (8 * i + 6)
        = v % UINT64_MOD / 2 ^ 8 % 256
    ∧ read_openplc_lint_to_buffer bufSize img d size ty sb (8 * i + 7) = v % 2 ^ 8 := by
  have hfold : read_openplc_lint_to_buffer bufSize img d size ty sb
      = (List.range (min (bufSize - sb) (size / 8))).foldl (fun d i =>
          match img ⟨s7_family ty, sb + i, 0⟩ with
          | some v => store_le 8 d i (swap64 (v % UINT64_MOD))
          | none => d) d := by
    unfold read_openplc_lint_to_buffer
    rw [if_pos hty]
  have hg0 := read_fold_byte 8 (fun w => swap64 (w % UINT64_MOD)) img (s7_family ty) sb
    (min (bufSize - sb) (size / 8)) d i 0 hi (by norm_num)
  have hg1 := read_fold_byte 8 (fun w => swap64 (w % UINT64_MOD)) img (s7_family ty) sb
    (min (bufSize - sb) (size / 8)) d i 1 hi (by norm_num)
  have hg2 := read_fold_byte 8 (fun w => swap64 (w % UINT64_MOD)) img (s7_family ty) sb
    (min (bufSize - sb) (size / 8)) d i 2 hi (by norm_num)
  have hg3 := read_fold_byte 8 (fun w => swap64 (w % UINT64_MOD)) img (s7_family ty) sb
    (min (bufSize - sb) (size / 8)) d i 3 hi (by norm_num)
  have hg4 := read_fold_byte 8 (fun w => swap64 (w % UINT64_MOD)) img (s7_family ty) sb
    (min (bufSize - sb) (size / 8)) d i 4 hi (by norm_num)
  have hg5 := read_fold_byte 8 (fun w => swap64 (w % UINT64_MOD)) img (s7_family ty) sb
    (min (bufSize - sb) (size / 8)) d i 5 hi (by norm_num)
  have hg6 := read_fold_byte 8 (fun w => swap64 (w % UINT64_MOD)) img (s7_family ty) sb
    (min (bufSize - sb) (size / 8)) d i 6 hi (by norm_num)
  have hg7 := read_fold_byte 8 (fun w => swap64 (w % UINT64_MOD)) img (s7_family ty) sb
    (min (bufSize - sb) (size / 8)) d i 7 hi (by norm_num)
  rw [hv] at hg0 hg1 hg2 hg3 hg4 hg5 hg6 hg7
  simp only [] at hg0 hg1 hg2 hg3 hg4 hg5 hg6 hg7
  rw [Nat.add_zero] at hg0
  norm_num at hg0 hg1 hg2 hg3 hg4 hg5 hg6 hg7
  obtain ⟨w0, w1, w2, w3, w4, w5, w6, w7⟩ := swap64_wire (v % UINT64_MOD)
  rw [hfold, hg0, hg1, hg2, hg3, hg4, hg5, hg6, hg7, w0, w1, w2, w3, w4, w5, w6, w7]
  simp only [UINT64_MOD, pow2_8, pow2_16, pow2_24, pow2_32, pow2_40, pow2_48, pow2_56]
  refine ⟨?_, ?_, ?_, ?_, ?_, ?_, ?_, ?_⟩ <;> first
    | trivial
    | omega

theorem read_dispatch_bool (bufSize : Nat) (img : ImageTables) (d : Nat → Nat) (size : Nat)
    (ty : s7comm_buffer_type_t) (sb : Nat)
    (hty : ty = .bool_input ∨ ty = .bool_output ∨ ty = .bool_memory) :
    read_openplc_to_buffer bufSize img d size ty sb
      = read_openplc_bool_to_buffer bufSize img d size ty sb := by
  rcases hty with rfl | rfl | rfl <;> rfl

theorem read_dispatch_int (bufSize : Nat) (img : ImageTables) (d : Nat → Nat) (size : Nat)
    (ty : s7comm_buffer_type_t) (sb : Nat)
    (hty : ty = .int_input ∨ ty = .int_output ∨ ty = .int_memory) :
    read_openplc_to_buffer bufSize img d size ty sb
      = read_openplc_int_to_buffer bufSize img d size ty sb := by
  rcases hty with rfl | rfl | rfl <;> rfl

theorem read_dispatch_dint (bufSize : Nat) (img : ImageTables) (d : Nat → Nat) (size : Nat)
    (ty : s7comm_buffer_type_t) (sb : Nat)
    (hty : ty = .dint_input ∨ ty = .dint_output ∨ ty = .dint_memory) :
    read_openplc_to_buffer bufSize img d size ty sb
      = read_openplc_dint_to_buffer bufSize img d size ty sb := by
  rcases hty with rfl | rfl | rfl <;> rfl

theorem read_dispatch_lint (bufSize : Nat) (img : ImageTables) (d : Nat → Nat) (size : Nat)
    (ty : s7comm_buffer_type_t) (sb : Nat)
    (hty : ty = .lint_input ∨ ty = .lint_output ∨ ty = .lint_memory) :
    read_openplc_to_buffer bufSize img d size ty sb
      = read_openplc_lint_to_buffer bufSize img d size ty sb := by
  rcases hty with rfl | rfl | rfl <;> rfl

/-- Image tables for the spec's protocol-read scenario: `int_input[0] =
0x1234`, `int_input[1] = 0x5678`, everything else unbound. -/
def imgDB10 : ImageTables :=
  fun s => if s = ⟨5, 0, 0⟩ then some 0x1234
           else if s = ⟨5, 1, 0⟩ then some 0x5678
           else none

/-- A disabled system area, used where the scenario configures none. -/
def areaOff : s7comm_area_runtime_t :=
  { enabled := false, size_bytes := 0, type := .bool_input, start_buffer := 0 }

/-- The spec's data block 10: 4 bytes mapping `int_input` from index 0. -/
def db10 : s7comm_db_runtime_t :=
  { db_number := 10, type := .int_input, start_buffer := 0, size_bytes := 4,
    bit_addressing := false }

/-- The spec's read request: 4 bytes of DB 10 at offset 0. -/
def tag10 : TS7Tag := { Area := srvAreaDB, DBNumber := 10, Start := 0, Size := 4 }

/-- An enabled PE system area mapping `bool_input` from element 0, for the
system-area read scenario. -/
def peBool : s7comm_area_runtime_t :=
  { enabled := true, size_bytes := 2, type := .bool_input, start_buffer := 0 }

/-- Image tables for the system-area scenario: `bool_input[0].0 = 1` and
`bool_input[0].3 = 7` (nonzero), everything else unbound. -/
def imgPE : ImageTables :=
  fun s => if s = ⟨0, 0, 0⟩ then some 1
           else if s = ⟨0, 0, 3⟩ then some 7
           else none

/-- A read request for 1 byte of the PE system area at offset 0. -/
def tagPE : TS7Tag := { Area := srvAreaPE, DBNumber := 0, Start := 0, Size := 1 }

/-- C9: a remote protocol read of a configured area - a data block or an
enabled PE/PA/MK system area - takes the image lock, transcodes the
addressed slice of the mapped family into network byte order into the
caller's buffer, releases the lock, and accepts the operation, leaving the
image tables and journal untouched.  Per family: every bound 16-bit int
element is emitted big-endian (high byte first), every bound 32-bit dint
and 64-bit lint element likewise most significant byte first, and bool
cells are bit-packed eight to a byte with bit 0 least significant.  In the
spec's scenario - DB 10 mapping `int_input[0..1]` holding `0x1234` and
`0x5678` - reading 4 bytes yields the wire bytes `12 34 56 78`; and a
1-byte read of an enabled PE area mapping `bool_input` with bits 0 and 3
set yields the packed byte `0x09`. -/
theorem s7comm_read_snapshot_spec (bufSize : Nat) (dbs : List s7comm_db_runtime_t)
    (pe pa mk : s7comm_area_runtime_t) (img : ImageTables) (j : JournalState)
    (tag : TS7Tag) (buf : Nat → Nat) (ty : s7comm_buffer_type_t) (sb : Nat)
    (hmap : s7comm_resolve_mapping dbs pe pa mk tag = some (ty, sb)) :
    (s7comm_rw_area_callback bufSize dbs pe pa mk (img, j) OperationRead tag false buf).result
      = 0 ∧
    (s7comm_rw_area_callback bufSize dbs pe pa mk (img, j) OperationRead tag false buf).events
      = [S7CbEvent.mutex_take, S7CbEvent.mutex_give] ∧
    (s7comm_rw_area_callback bufSize dbs pe pa mk (img, j) OperationRead tag false buf).state
      = (img, j) ∧
    (s7comm_rw_area_callback bufSize dbs pe pa mk (img, j) OperationRead tag false buf).buf
      = read_openplc_to_buffer bufSize img buf tag.Size ty sb ∧
    ((ty = .bool_input ∨ ty = .bool_output ∨ ty = .bool_memory) →
      ∀ b, b < min (bufSize - sb) tag.Size →
        (s7comm_rw_area_callback bufSize dbs pe pa mk (img, j) OperationRead tag false buf).buf b
          = spec_packed_byte img (s7_family ty) (sb + b)) ∧
    ((ty = .int_input ∨ ty = .int_output ∨ ty = .int_memory) →
      ∀ i v, i < min (bufSize - sb) (tag.Size / 2) →
        img ⟨s7_family ty, sb + i, 0⟩ = some v →
        (s7comm_rw_area_callback bufSize dbs pe pa mk (img, j) OperationRead tag false buf).buf
            (2 * i) = v % UINT16_MOD / 2 ^ 8 ∧
        (s7comm_rw_area_callback bufSize dbs pe pa mk (img, j) OperationRead tag false buf).buf
            (2 * i + 1) = v % 2 ^ 8) ∧
    ((ty = .dint_input ∨ ty = .dint_output ∨ ty = .dint_memory) →
      ∀ i v, i < min (bufSize - sb) (tag.Size / 4) →
        img ⟨s7_family ty, sb + i, 0⟩ = some v →
        (s7comm_rw_area_callback bufSize dbs pe pa mk (img, j) OperationRead tag false buf).buf
            (4 * i) = v % UINT32_MOD / 2 ^ 24 ∧
        (s7comm_rw_area_callback bufSize dbs pe pa mk (img, j) OperationRead tag false buf).buf
            (4 * i + 1) = v % UINT32_MOD / 2 ^ 16 % 256 ∧
        (s7comm_rw_area_callback bufSize dbs pe pa mk (img, j) OperationRead tag false buf).buf
            (4 * i + 2) = v % UINT32_MOD / 2 ^ 8 % 256 ∧
        (s7comm_rw_area_callback bufSize dbs pe pa mk (img, j) OperationRead tag false buf).buf
            (4 * i + 3) = v % 2 ^ 8) ∧
    ((ty = .lint_input ∨ ty = .lint_output ∨ ty = .lint_memory) →
      ∀ i v, i < min (bufSize - sb) (tag.Size / 8) →
        img ⟨s7_family ty, sb + i, 0⟩ = some v →
        (s7comm_rw_area_callback bufSize dbs pe pa mk (img, j) OperationRead tag false buf).buf
            (8 * i) = v % UINT64_MOD / 2 ^ 56 ∧
        (s7comm_rw_area_callback bufSize dbs pe pa mk (img, j) OperationRead tag false buf).buf
            (8 * i + 1) = v % UINT64_MOD / 2 ^ 48 % 256 ∧
        (s7comm_rw_area_callback bufSize dbs pe pa mk (img, j) OperationRead tag false buf).buf
            (8 * i + 2) = v % UINT64_MOD / 2 ^ 40 % 256 ∧
        (s7comm_rw_area_callback bufSize dbs pe pa mk (img, j) OperationRead tag false buf).buf
            (8 * i + 3) = v % UINT64_MOD / 2 ^ 32 % 256 ∧
        (s7comm_rw_area_callback bufSize dbs pe pa mk (img, j) OperationRead tag false buf).buf
            (8 * i + 4) = v % UINT64_MOD / 2 ^ 24 % 256 ∧
        (s7comm_rw_area_callback bufSize dbs pe pa mk (img, j) OperationRead tag false buf).buf
            (8 * i + 5) = v % UINT64_MOD / 2 ^ 16 % 256 ∧
        (s7comm_rw_area_callback bufSize dbs pe pa mk (img, j) OperationRead tag false buf).buf
            (8 * i + 6) = v % UINT64_MOD / 2 ^ 8 % 256 ∧
        (s7comm_rw_area_callback bufSize dbs pe pa mk (img, j) OperationRead tag false buf).buf
            (8 * i + 7) = v % 2 ^ 8) ∧
    ((s7comm_rw_area_callback 1024 [db10] areaOff areaOff areaOff (imgDB10, journal_init)
        OperationRead tag10 false (fun _ => 0)).buf 0 = 0x12 ∧
     (s7comm_rw_area_callback 1024 [db10] areaOff areaOff areaOff (imgDB10, journal_init)
        OperationRead tag10 false (fun _ => 0)).buf 1 = 0x34 ∧
     (s7comm_rw_area_callback 1024 [db10] areaOff areaOff areaOff (imgDB10, journal_init)
        OperationRead tag10 false (fun _ => 0)).buf 2 = 0x56 ∧
     (s7comm_rw_area_callback 1024 [db10] areaOff areaOff areaOff (imgDB10, journal_init)
        OperationRead tag10 false (fun _ => 0)).buf 3 = 0x78) ∧
    (s7comm_rw_area_callback 1024 [] peBool areaOff areaOff (imgPE, journal_init)
        OperationRead tagPE false (fun _ => 0)).buf 0 = 0x09 := by
  have hcb : s7comm_rw_area_callback bufSize dbs pe pa mk (img, j) OperationRead tag false buf
      = ⟨0, read_openplc_to_buffer bufSize img buf tag.Size ty sb, (img, j),
           [S7CbEvent.mutex_take, S7CbEvent.mutex_give]⟩ := by
    simp [s7comm_rw_area_callback, hmap]
  refine ⟨by rw [hcb], by rw [hcb], by rw [hcb], by rw [hcb], ?_, ?_, ?_, ?_,
    ⟨by decide, by decide, by decide, by decide⟩, by decide⟩
  · intro hty b hb
    rw [hcb, read_dispatch_bool bufSize img buf tag.Size ty sb hty]
    exact read_bool_bytes bufSize img buf tag.Size sb ty hty b hb
  · intro hty i v hi hv
    rw [hcb, read_dispatch_int bufSize img buf tag.Size ty sb hty]
    exact read_int_bytes bufSize img buf tag.Size sb ty hty i v hi hv
  · intro hty i v hi hv
    rw [hcb, read_dispatch_dint bufSize img buf tag.Size ty sb hty]
    exact read_dint_bytes bufSize img buf tag.Size sb ty hty i v hi hv
  · intro hty i v hi hv
    rw [hcb, read_dispatch_lint bufSize img buf tag.Size ty sb hty]
    exact read_lint_bytes bufSize img buf tag.Size sb ty hty i v hi hv

theorem s7comm_read_snapshot_spec_witness :
    (s7comm_rw_area_callback 1024 [db10] areaOff areaOff areaOff (imgDB10, journal_init)
        OperationRead tag10 false (fun _ => 0)).result = 0 ∧
    (s7comm_rw_area_callback 1024 [db10] areaOff areaOff areaOff (imgDB10, journal_init)
        OperationRead tag10 false (fun _ => 0)).events
      = [S7CbEvent.mutex_take, S7CbEvent.mutex_give] ∧
    (s7comm_rw_area_callback 1024 [db10] areaOff areaOff areaOff (imgDB10, journal_init)
        OperationRead tag10 false (fun _ => 0)).state = (imgDB10, journal_init) ∧
    (s7comm_rw_area_callback 1024 [db10] areaOff areaOff areaOff (imgDB10, journal_init)
        OperationRead tag10 false (fun _ => 0)).buf
      = read_openplc_to_buffer 1024 imgDB10 (fun _ => 0) tag10.Size .int_input 0 ∧
    ((s7comm_buffer_type_t.int_input = .bool_input ∨ s7comm_buffer_type_t.int_input = .bool_output
        ∨ s7comm_buffer_type_t.int_input = .bool_memory) →
      ∀ b, b < min (1024 - 0) tag10.Size →
        (s7comm_rw_area_callback 1024 [db10] areaOff areaOff areaOff (imgDB10, journal_init)
            OperationRead tag10 false (fun _ => 0)).buf b
          = spec_packed_byte imgDB10 (s7_family .int_input) (0 + b)) ∧
    ((s7comm_buffer_type_t.int_input = .int_input ∨ s7comm_buffer_type_t.int_input = .int_output
        ∨ s7comm_buffer_type_t.int_input = .int_memory) →
      ∀ i v, i < min (1024 - 0) (tag10.Size / 2) →
        imgDB10 ⟨s7_family .int_input, 0 + i, 0⟩ = some v →
        (s7comm_rw_area_callback 1024 [db10] areaOff areaOff areaOff (imgDB10, journal_init)
            OperationRead tag10 false (fun _ => 0)).buf (2 * i) = v % UINT16_MOD / 2 ^ 8 ∧
        (s7comm_rw_area_callback 1024 [db10] areaOff areaOff areaOff (imgDB10, journal_init)
            OperationRead tag10 false (fun _ => 0)).buf (2 * i + 1) = v % 2 ^ 8) ∧
    ((s7comm_buffer_type_t.int_input = .dint_input ∨ s7comm_buffer_type_t.int_input = .dint_output
        ∨ s7comm_buffer_type_t.int_input = .dint_memory) →
      ∀ i v, i < min (1024 - 0) (tag10.Size / 4) →
        imgDB10 ⟨s7_family .int_input, 0 + i, 0⟩ = some v →
        (s7comm_rw_area_callback 1024 [db10] areaOff areaOff areaOff (imgDB10, journal_init)
            OperationRead tag10 false (fun _ => 0)).buf (4 * i) = v % UINT32_MOD / 2 ^ 24 ∧
        (s7comm_rw_area_callback 1024 [db10] areaOff areaOff areaOff (imgDB10, journal_init)
            OperationRead tag10 false (fun _ => 0)).buf (4 * i + 1)
          = v % UINT32_MOD / 2 ^ 16 % 256 ∧
        (s7comm_rw_area_callback 1024 [db10] areaOff areaOff areaOff (imgDB10, journal_init)
            OperationRead tag10 false (fun _ => 0)).buf (4 * i + 2)
          = v % UINT32_MOD / 2 ^ 8 % 256 ∧
        (s7comm_rw_area_callback 1024 [db10] areaOff areaOff areaOff (imgDB10, journal_init)
            OperationRead tag10 false (fun _ => 0)).buf (4 * i + 3) = v % 2 ^ 8) ∧
    ((s7comm_buffer_type_t.int_input = .lint_input ∨ s7comm_buffer_type_t.int_input = .lint_output
        ∨ s7comm_buffer_type_t.int_input = .lint_memory) →
      ∀ i v, i < min (1024 - 0) (tag10.Size / 8) →
        imgDB10 ⟨s7_family .int_input, 0 + i, 0⟩ = some v →
        (s7comm_rw_area_callback 1024 [db10] areaOff areaOff areaOff (imgDB10, journal_init)
            OperationRead tag10 false (fun _ => 0)).buf (8 * i) = v % UINT64_MOD / 2 ^ 56 ∧
        (s7comm_rw_area_callback 1024 [db10] areaOff areaOff areaOff (imgDB10, journal_init)
            OperationRead tag10 false (fun _ => 0)).buf (8 * i + 1)
          = v % UINT64_MOD / 2 ^ 48 % 256 ∧
        (s7comm_rw_area_callback 1024 [db10] areaOff areaOff areaOff (imgDB10, journal_init)
            OperationRead tag10 false (fun _ => 0)).buf (8 * i + 2)
          = v % UINT64_MOD / 2 ^ 40 % 256 ∧
        (s7comm_rw_area_callback 1024 [db10] areaOff areaOff areaOff (imgDB10, journal_init)
            OperationRead tag10 false (fun _ => 0)).buf (8 * i + 3)
          = v % UINT64_MOD / 2 ^ 32 % 256 ∧
        (s7comm_rw_area_callback 1024 [db10] areaOff areaOff areaOff (imgDB10, journal_init)
            OperationRead tag10 false (fun _ => 0)).buf (8 * i + 4)
          = v % UINT64_MOD / 2 ^ 24 % 256 ∧
        (s7comm_rw_area_callback 1024 [db10] areaOff areaOff areaOff (imgDB10, journal_init)
            OperationRead tag10 false (fun _ => 0)).buf (8 * i + 5)
          = v % UINT64_MOD / 2 ^ 16 % 256 ∧
        (s7comm_rw_area_callback 1024 [db10] areaOff areaOff areaOff (imgDB10, journal_init)
            OperationRead tag10 false (fun _ => 0)).buf (8 * i + 6)
          = v % UINT64_MOD / 2 ^ 8 % 256 ∧
        (s7comm_rw_area_callback 1024 [db10] areaOff areaOff areaOff (imgDB10, journal_init)
            OperationRead tag10 false (fun _ => 0)).buf (8 * i + 7) = v % 2 ^ 8) ∧
    ((s7comm_rw_area_callback 1024 [db10] areaOff areaOff areaOff (imgDB10, journal_init)
        OperationRead tag10 false (fun _ => 0)).buf 0 = 0x12 ∧
     (s7comm_rw_area_callback 1024 [db10] areaOff areaOff areaOff (imgDB10, journal_init)
        OperationRead tag10 false (fun _ => 0)).buf 1 = 0x34 ∧
     (s7comm_rw_area_callback 1024 [db10] areaOff areaOff areaOff (imgDB10, journal_init)
        OperationRead tag10 false (fun _ => 0)).buf 2 = 0x56 ∧
     (s7comm_rw_area_callback 1024 [db10] areaOff areaOff areaOff (imgDB10, journal_init)
        OperationRead tag10 false (fun _ => 0)).buf 3 = 0x78) ∧
    (s7comm_rw_area_callback 1024 [] peBool areaOff areaOff (imgPE, journal_init)
        OperationRead tagPE false (fun _ => 0)).buf 0 = 0x09 :=
  s7comm_read_snapshot_spec 1024 [db10] areaOff areaOff areaOff imgDB10 journal_init
    tag10 (fun _ => 0) .int_input 0 rfl

/-! ## C1: the scan-cycle tick body -/

/-- Modelled from the spec: the scan-cycle engine's tick loop body
(`plc_state_manager.c` / `scan_cycle_manager.c` are not among the staged
sources; spec section 4.3 steps 1-7 and the journal architecture document's
`plc_cycle_start` sketch).  The observable actions of one tick, in order. -/
inductive TickEvent where
  | acquire_image_lock
  | apply_journal
  | plugin_cycle_start (i : Nat)
  | control_run (tick : Nat)
  | control_update_time
  | plugin_cycle_end (i : Nat)
  | release_image_lock
deriving DecidableEq

/-- Whether an event is part of the tick's working section (a plugin hook or
control-program code), as opposed to the lock and journal bookkeeping. -/
def TickEvent.isMid : TickEvent → Bool
  | .plugin_cycle_start _ => true
  | .control_run _ => true
  | .control_update_time => true
  | .plugin_cycle_end _ => true
  | _ => false

/-- Modelled from the spec: one loaded plugin as the tick sees it - whether
it exports each optional cycle hook, and the hook's effect on the image
tables (hooks run with the image lock held). -/
structure PluginHooks where
  has_cycle_start : Bool
  has_cycle_end : Bool
  on_cycle_start : ImageTables → ImageTables
  on_cycle_end : ImageTables → ImageTables

/-- Modelled from the spec: one `plugin_cycle_start i` event per plugin `i`
that provides the hook, in plugin order. -/
def cycle_start_events (ps : List PluginHooks) : List TickEvent :=
  (ps.enum.filter (fun q => q.2.has_cycle_start)).map (fun q => TickEvent.plugin_cycle_start q.1)

/-- Modelled from the spec: one `plugin_cycle_end i` event per plugin `i`
that provides the hook, in plugin order. -/
def cycle_end_events (ps : List PluginHooks) : List TickEvent :=
  (ps.enum.filter (fun q => q.2.has_cycle_end)).map (fun q => TickEvent.plugin_cycle_end q.1)

/-- Modelled from the spec: the event sequence of one RUNNING tick - acquire
the image lock, apply-and-clear the journal, run every exported
`cycle_start` hook, run the control program (`run(tick_counter)` then
`update_time`), run every exported `cycle_end` hook, release the image
lock. -/
def tick_events (ps : List PluginHooks) (tick : Nat) : List TickEvent :=
  [TickEvent.acquire_image_lock, TickEvent.apply_journal]
    ++ cycle_start_events ps
    ++ [TickEvent.control_run tick, TickEvent.control_update_time]
    ++ cycle_end_events ps
    ++ [TickEvent.release_image_lock]

/-- Modelled from the spec: invoke each plugin's `cycle_start` hook if it
exports one. -/
def run_cycle_start_hooks (ps : List PluginHooks) (img : ImageTables) : ImageTables :=
  ps.foldl (fun im p => if p.has_cycle_start then p.on_cycle_start im else im) img

/-- Modelled from the spec: invoke each plugin's `cycle_end` hook if it
exports one. -/
def run_cycle_end_hooks (ps : List PluginHooks) (img : ImageTables) : ImageTables :=
  ps.foldl (fun im p => if p.has_cycle_end then p.on_cycle_end im else im) img

/-- The image tables every cycle hook and the control program observe during
a tick: the journal has already been applied and cleared (the real
`journal_apply_and_clear` of journal_buffer.c). -/
def tick_hook_input (bufSize : Nat) (img : ImageTables) (j : JournalState) : ImageTables :=
  (journal_apply_and_clear bufSize img j).1

/-- Modelled from the spec: the state transformation of one RUNNING tick,
threading the journal-applied image through the `cycle_start` hooks, the
control program (`runF` for `run(tick_counter)`, `updF` for `update_time`)
and the `cycle_end` hooks. -/
def tick_state (bufSize : Nat) (ps : List PluginHooks)
    (runF : Nat → ImageTables → ImageTables) (updF : ImageTables → ImageTables)
    (tick : Nat) (img : ImageTables) (j : JournalState) : ImageTables × JournalState :=
  (run_cycle_end_hooks ps
     (updF (runF tick (run_cycle_start_hooks ps (tick_hook_input bufSize img j)))),
   (journal_apply_and_clear bufSize img j).2)

theorem tick_events_eq (ps : List PluginHooks) (tc : Nat) :
    tick_events ps tc
      = TickEvent.acquire_image_lock :: TickEvent.apply_journal ::
        ((cycle_start_events ps
            ++ [TickEvent.control_run tc, TickEvent.control_update_time]
            ++ cycle_end_events ps) ++ [TickEvent.release_image_lock]) := by
  simp [tick_events]

theorem mid_events_isMid (ps : List PluginHooks) (tc : Nat) :
    ∀ e ∈ cycle_start_events ps
        ++ [TickEvent.control_run tc, TickEvent.control_update_time]
        ++ cycle_end_events ps, e.isMid = true := by
  intro e he
  rcases List.mem_append.1 he with he | he
  · rcases List.mem_append.1 he with he | he
    · obtain ⟨q, -, rfl⟩ := List.mem_map.1 he
      rfl
    · simp only [List.mem_cons, List.not_mem_nil, or_false] at he
      rcases he with rfl | rfl
      · rfl
      · rfl
  · obtain ⟨q, -, rfl⟩ := List.mem_map.1 he
    rfl

theorem tick_list_shape (M : List TickEvent) (hmid : ∀ e ∈ M, e.isMid = true) :
    (∀ i, (TickEvent.acquire_image_lock :: TickEvent.apply_journal ::
        (M ++ [TickEvent.release_image_lock])).get? i = some TickEvent.apply_journal → i = 1)
    ∧ (∀ i e, (TickEvent.acquire_image_lock :: TickEvent.apply_journal ::
        (M ++ [TickEvent.release_image_lock])).get? i = some e → e.isMid = true →
        2 ≤ i ∧ i + 1 < (TickEvent.acquire_image_lock :: TickEvent.apply_journal ::
          (M ++ [TickEvent.release_image_lock])).length)
    ∧ (∀ i, (TickEvent.acquire_image_lock :: TickEvent.apply_journal ::
        (M ++ [TickEvent.release_image_lock])).get? i = some TickEvent.release_image_lock →
        i + 1 = (TickEvent.acquire_image_lock :: TickEvent.apply_journal ::
          (M ++ [TickEvent.release_image_lock])).length) := by
  refine ⟨?_, ?_, ?_⟩
  · intro i hi
    rcases i with _ | _ | n
    · rw [List.get?_cons_zero] at hi
      exact absurd hi (by decide)
    · rfl
    · exfalso
      rw [List.get?_cons_succ, List.get?_cons_succ] at hi
      rcases List.mem_append.1 (List.get?_mem hi) with hm | hm
      · exact absurd (hmid _ hm) (by decide)
      · exact absurd hm (by decide)
  · intro i e hi hmide
    rcases i with _ | _ | n
    · rw [List.get?_cons_zero] at hi
      injection hi with hi
      subst hi
      exact absurd hmide (by decide)
    · rw [List.get?_cons_succ, List.get?_cons_zero] at hi
      injection hi with hi
      subst hi
      exact absurd hmide (by decide)
    · rw [List.get?_cons_succ, List.get?_cons_succ] at hi
      have hn : n < M.length + 1 := by simpa using (List.get?_eq_some.1 hi).1
      by_cases hcase : n = M.length
      · exfalso
        subst hcase
        rw [List.get?_concat_length] at hi
        injection hi with hi
        subst hi
        exact absurd hmide (by decide)
      · refine ⟨by omega, ?_⟩
        simp only [List.length_cons, List.length_append, List.length_singleton, List.length_nil]
        omega
  · intro i hi
    rcases i with _ | _ | n
    · rw [List.get?_cons_zero] at hi
      exact absurd hi (by decide)
    · rw [List.get?_cons_succ, List.get?_cons_zero] at hi
      exact absurd hi (by decide)
    · rw [List.get?_cons_succ, List.get?_cons_succ] at hi
      have hn : n < M.length + 1 := by simpa using (List.get?_eq_some.1 hi).1
      by_cases hcase : n = M.length
      · subst hcase
        simp only [List.length_cons, List.length_append, List.length_singleton, List.length_nil]
      · exfalso
        have hlt : n < M.length := by omega
        rw [List.get?_append hlt] at hi
        exact absurd (hmid _ (List.get?_mem hi)) (by decide)

/-- Claim C1: within one RUNNING tick the loop body performs, in order,
acquire image lock (event 0), journal apply_and_clear (event 1, and nowhere
else), all plugin cycle_start hooks, the control program run(tick_counter)
and update_time, all plugin cycle_end hooks (these strictly between the
journal apply and the lock release), and only then releases the image lock
(the last event); consequently the image every hook and the control program
observe already has all journal entries applied (when the journal is live,
the hook input is the fold of `apply_entry` over the pending entries and
the pending count after apply is 0), and the tick's state transformation
threads that journal-applied image through cycle_start hooks, then run,
then update_time, then cycle_end hooks.  The tick body itself is modelled
from the spec (section 4.3) as `plc_state_manager.c` is not among the
staged sources; the journal functions are the real ones from
journal_buffer.c. -/
theorem plc_tick_order (ps : List PluginHooks) (tc bufSize : Nat)
    (runF : Nat → ImageTables → ImageTables) (updF : ImageTables → ImageTables)
    (img : ImageTables) (j : JournalState) :
    (tick_events ps tc).get? 0 = some TickEvent.acquire_image_lock
    ∧ (tick_events ps tc).get? 1 = some TickEvent.apply_journal
    ∧ (∀ i, (tick_events ps tc).get? i = some TickEvent.apply_journal → i = 1)
    ∧ (∀ i e, (tick_events ps tc).get? i = some e → e.isMid = true →
        2 ≤ i ∧ i + 1 < (tick_events ps tc).length)
    ∧ (∀ i, (tick_events ps tc).get? i = some TickEvent.release_image_lock →
        i + 1 = (tick_events ps tc).length)
    ∧ (j.ready = true →
        tick_hook_input bufSize img j = j.entries.foldl (apply_entry bufSize) img
        ∧ journal_pending_count (journal_apply_and_clear bufSize img j).2 = 0)
    ∧ tick_state bufSize ps runF updF tc img j
        = (run_cycle_end_hooks ps
             (updF (runF tc (run_cycle_start_hooks ps (tick_hook_input bufSize img j)))),
           (journal_apply_and_clear bufSize img j).2) := by
  obtain ⟨h3, h4, h5⟩ := tick_list_shape
    (cycle_start_events ps
      ++ [TickEvent.control_run tc, TickEvent.control_update_time]
      ++ cycle_end_events ps) (mid_events_isMid ps tc)
  refine ⟨rfl, rfl, ?_, ?_, ?_, ?_, rfl⟩
  · rw [tick_events_eq]
    exact h3
  · rw [tick_events_eq]
    exact h4
  · rw [tick_events_eq]
    exact h5
  · intro hready
    constructor
    · unfold tick_hook_input journal_apply_and_clear
      rw [if_neg (by simp [hready])]
    · unfold journal_pending_count journal_apply_and_clear
      rw [if_neg (by simp [hready])]
      rfl
